import Mathlib

/-!
# Lionhead SMS relay (`src/app.js`): a shallow embedding

The development follows the source file top to bottom:

* the in-memory session store (`conversationContexts`, `getOrCreateContext`,
  `cleanupExpiredContexts`);
* the tool dispatcher (`sendQualifiedLeadNotification`, `handleFunctionCall`), together with a
  model of the `JSON.parse` builtin it calls;
* `getDaySuffix`;
* the `/lionhead-sms` request handler, with the external collaborators (assistant backend,
  messaging client, clock) passed in explicitly.

JavaScript exceptions are `Except.error`, mutable state is passed explicitly, and every call to an
external collaborator is recorded in a call log.
-/

namespace Lionhead

/-! ## The session store -/

/-- The context object stored per phone number (`src/app.js` lines 41-45). `threadId` is `null`
(`none`) or the identifier string returned by the backend; the timestamps are `Date.now()` values
(integral milliseconds). -/
structure Context where
  threadId : Option String
  createdAt : Int
  lastUpdated : Int
deriving DecidableEq, Repr

/-- A JavaScript `Map`: its entries in insertion order. A `Map` never holds two entries with the
same key, which is the predicate `JsMap.WF`. -/
abbrev JsMap (K V : Type) := List (K × V)

namespace JsMap

variable {K V : Type} [DecidableEq K]

/-- The invariant of a `Map`: keys are pairwise distinct. -/
def WF (m : JsMap K V) : Prop := (m.map Prod.fst).Nodup

/-- `Map.prototype.get`; `none` is `undefined`. -/
def get : JsMap K V → K → Option V
  | [], _ => none
  | (k', v) :: rest, k => if k' = k then some v else get rest k

/-- `Map.prototype.has`. -/
def has (m : JsMap K V) (k : K) : Bool := (get m k).isSome

/-- Overwrite the value of an existing key, keeping its position. -/
def replace : JsMap K V → K → V → JsMap K V
  | [], _, _ => []
  | (k', v') :: rest, k, v => if k' = k then (k', v) :: rest else (k', v') :: replace rest k v

/-- `Map.prototype.set`: an existing key keeps its position, a new key is appended. -/
def set (m : JsMap K V) (k : K) (v : V) : JsMap K V :=
  if has m k then replace m k v else m ++ [(k, v)]

/-- `Map.prototype.delete`. -/
def delete (m : JsMap K V) (k : K) : JsMap K V := m.filter (fun e => decide (e.1 ≠ k))

/-- `Map.prototype.size`. -/
def size (m : JsMap K V) : Nat := m.length

end JsMap

section Store

variable {K : Type} [DecidableEq K]

/-- `getOrCreateContext` (`src/app.js` lines 39-52). `conversationContexts` is the module-level
`Map`, passed in and returned. `now₁` and `now₂` are the values of the first and the second
`Date.now()` call made by this invocation: the creation branch reads the clock twice (once for
`createdAt`, once for `lastUpdated`), the refresh branch reads it once. The result is
`conversationContexts.get(phoneNumber)` after the update. -/
def getOrCreateContext (now₁ now₂ : Int) (conversationContexts : JsMap K Context)
    (phoneNumber : K) : Option Context × JsMap K Context :=
  let contexts :=
    if !(JsMap.has conversationContexts phoneNumber) then
      JsMap.set conversationContexts phoneNumber
        { threadId := none, createdAt := now₁, lastUpdated := now₂ }
    else
      match JsMap.get conversationContexts phoneNumber with
      | some context =>
        -- `context.lastUpdated = Date.now()` mutates the stored object in place
        JsMap.set conversationContexts phoneNumber { context with lastUpdated := now₁ }
      | none => conversationContexts
  (JsMap.get contexts phoneNumber, contexts)

/-- `cleanupExpiredContexts` (`src/app.js` lines 55-62) run when `Date.now()` returns `now`:
iterate over the entries and delete each one whose `lastUpdated` is below `now - 86400000`. -/
def cleanupExpiredContexts (now : Int) (conversationContexts : JsMap K Context) :
    JsMap K Context :=
  let oneDayAgo := now - 86400000
  conversationContexts.foldl
    (fun contexts entry =>
      if entry.2.lastUpdated < oneDayAgo then JsMap.delete contexts entry.1 else contexts)
    conversationContexts

end Store

/-! ## JavaScript values and exceptions -/

/-- The exceptions the program can meet: the `SyntaxError` of `JSON.parse`, the `TypeError` of
reading a property of `null` or `undefined`, and an error raised by an external collaborator
(the assistant backend or the messaging client), carrying its `message`. -/
inductive JsError where
  | syntaxError
  | typeError
  | rejected (message : String)
deriving DecidableEq, Repr

/-- A JavaScript number: a finite value (an IEEE double is a rational; `-0` is not told apart from
`0`), the two infinities, or `NaN`. -/
inductive JsNumber where
  | finite (q : ℚ)
  | posInf
  | negInf
  | nan
deriving DecidableEq

/-- The values found in a parsed request body. `undefined` is not a constructor: a property read
returns `Option JsValue`, with `none` for `undefined`. -/
inductive JsValue where
  | null
  | bool (b : Bool)
  | num (n : JsNumber)
  | str (s : String)
  | arr (items : List JsValue)
  | obj (fields : List (String × JsValue))

namespace JsValue

mutual

/-- Structural equality of values is decidable. -/
def decEq : (a b : JsValue) → Decidable (a = b)
  | null, null => isTrue rfl
  | bool a, bool b =>
    if h : a = b then isTrue (congrArg bool h) else isFalse (fun e => h (bool.inj e))
  | num a, num b =>
    if h : a = b then isTrue (congrArg num h) else isFalse (fun e => h (num.inj e))
  | str a, str b =>
    if h : a = b then isTrue (congrArg str h) else isFalse (fun e => h (str.inj e))
  | arr a, arr b =>
    match decEqList a b with
    | isTrue h => isTrue (congrArg arr h)
    | isFalse h => isFalse (fun e => h (arr.inj e))
  | obj a, obj b =>
    match decEqFields a b with
    | isTrue h => isTrue (congrArg obj h)
    | isFalse h => isFalse (fun e => h (obj.inj e))
  | null, bool _ | null, num _ | null, str _ | null, arr _ | null, obj _
  | bool _, null | bool _, num _ | bool _, str _ | bool _, arr _ | bool _, obj _
  | num _, null | num _, bool _ | num _, str _ | num _, arr _ | num _, obj _
  | str _, null | str _, bool _ | str _, num _ | str _, arr _ | str _, obj _
  | arr _, null | arr _, bool _ | arr _, num _ | arr _, str _ | arr _, obj _
  | obj _, null | obj _, bool _ | obj _, num _ | obj _, str _ | obj _, arr _ =>
    isFalse (fun e => JsValue.noConfusion e)

/-- Equality of arrays of values. -/
def decEqList : (a b : List JsValue) → Decidable (a = b)
  | [], [] => isTrue rfl
  | [], _ :: _ => isFalse (fun e => List.noConfusion e)
  | _ :: _, [] => isFalse (fun e => List.noConfusion e)
  | x :: xs, y :: ys =>
    match decEq x y, decEqList xs ys with
    | isTrue h₁, isTrue h₂ => isTrue (by rw [h₁, h₂])
    | isFalse h₁, _ => isFalse (fun e => h₁ (List.cons.inj e).1)
    | _, isFalse h₂ => isFalse (fun e => h₂ (List.cons.inj e).2)

/-- Equality of field lists. -/
def decEqFields : (a b : List (String × JsValue)) → Decidable (a = b)
  | [], [] => isTrue rfl
  | [], _ :: _ => isFalse (fun e => List.noConfusion e)
  | _ :: _, [] => isFalse (fun e => List.noConfusion e)
  | (k, x) :: xs, (l, y) :: ys =>
    if hk : k = l then
      match decEq x y, decEqFields xs ys with
      | isTrue h₁, isTrue h₂ => isTrue (by rw [hk, h₁, h₂])
      | isFalse h₁, _ => isFalse (fun e => h₁ (Prod.mk.inj (List.cons.inj e).1).2)
      | _, isFalse h₂ => isFalse (fun e => h₂ (List.cons.inj e).2)
    else isFalse (fun e => hk (Prod.mk.inj (List.cons.inj e).1).1)

end

instance : DecidableEq JsValue := decEq

/-- JavaScript truthiness of a possibly `undefined` value: `undefined`, `null`, `false`, `0`, `NaN`
and `""` are falsy, everything else (objects and arrays included) is truthy. -/
def truthy : Option JsValue → Bool
  | none => false
  | some null => false
  | some (bool b) => b
  | some (num (.finite q)) => decide (q ≠ 0)
  | some (num .nan) => false
  | some (num _) => true
  | some (str s) => decide (s ≠ "")
  | some (arr _) => true
  | some (obj _) => true

/-- The property read `v.name` for one of the names the handler uses (`customData`, `message`,
`phone`, `Body`, `From`): a `TypeError` on `null`, the field of an object, and `undefined` on every
other value. -/
def getProp (v : JsValue) (name : String) : Except JsError (Option JsValue) :=
  match v with
  | null => .error .typeError
  | obj fields => .ok (JsMap.get fields name)
  | _ => .ok none

/-- The array index a property name denotes, if any: the canonical decimal writing of an integer
between `0` and `2^32 - 2`. -/
def arrayIndex (name : String) : Option Nat :=
  let n := name.toList.foldl (fun a c => 10 * a + (c.toNat - '0'.toNat)) 0
  if toString n = name ∧ n ≤ 4294967294 then some n else none

/-- Insert an index into an ascending list of distinct indices. -/
def insertIndex (n : Nat) : List Nat → List Nat
  | [] => [n]
  | m :: ms => if n < m then n :: m :: ms else if n = m then m :: ms else m :: insertIndex n ms

/-- The indices among the names, ascending and without repetition. -/
def sortedIndices : List String → List Nat
  | [] => []
  | name :: names =>
    match arrayIndex name with
    | some n => insertIndex n (sortedIndices names)
    | none => sortedIndices names

/-- The names that are not array indices, in order, each at its first occurrence. -/
def otherNames : List String → List String
  | [] => []
  | name :: names =>
    match arrayIndex name with
    | some _ => otherNames names
    | none => name :: (otherNames names).filter (fun other => decide (other ≠ name))

/-- The own property names of an object in the order `Object.keys` lists them: the array indices
first, in ascending numeric order, then the other names in the order the properties were
created. -/
def ownKeys (names : List String) : List String :=
  (sortedIndices names).map toString ++ otherNames names

/-- `Object.keys(v)`: the own property names of an object (see `ownKeys`), the indices of an array
or of a string (one per UTF-16 code unit), nothing for a number or a boolean, and a `TypeError` on
`null`. -/
def keys (v : JsValue) : Except JsError (List String) :=
  match v with
  | null => .error .typeError
  | obj fields => .ok (ownKeys (fields.map Prod.fst))
  | arr items => .ok ((List.range items.length).map toString)
  | str s =>
    .ok ((List.range (s.toList.map
      (fun c => if c.toNat < 0x10000 then 1 else 2)).sum).map toString)
  | _ => .ok []

/-- The property read `v.name` on a value that may be `undefined`, where the handler makes it
only after testing `v` to be truthy (or does not use it otherwise): the field of an object,
`undefined` on anything else. -/
def member (v : Option JsValue) (name : String) : Option JsValue :=
  match v with
  | some (obj fields) => JsMap.get fields name
  | _ => none

end JsValue

/-! ## `JSON.parse` -/

/-- A JavaScript string as its sequence of UTF-16 code units. -/
abbrev Utf16 := List Nat

/-- The code units of one character. -/
def utf16 (c : Char) : Utf16 :=
  if c.toNat < 0x10000 then [c.toNat]
  else [0xD800 + (c.toNat - 0x10000) / 0x400, 0xDC00 + (c.toNat - 0x10000) % 0x400]

/-- The code units of a string. -/
def toUtf16 (s : String) : Utf16 := s.toList.flatMap utf16

/-- The value built by `JSON.parse`. A number is kept as its literal (its conversion to a double
is not modelled), a string and a member name as UTF-16 code units, and an object as its members
with distinct names. -/
inductive Json where
  | null
  | bool (b : Bool)
  | num (literal : List Char)
  | str (units : Utf16)
  | arr (items : List Json)
  | obj (members : List (Utf16 × Json))

/-- The property read `v.name` on a value that is not `null`: the member of an object, and
`undefined` (`none`) on any other value. -/
def Json.prop (v : Json) (name : String) : Option Json :=
  match v with
  | .obj members => JsMap.get members (toUtf16 name)
  | _ => none

namespace JSON

/-- JSON whitespace: tab, line feed, carriage return, space. -/
def isWhitespace (c : Char) : Bool := c = '\t' ∨ c = '\n' ∨ c = '\r' ∨ c = ' '

/-- Drop leading whitespace. -/
def skipWhitespace : List Char → List Char
  | [] => []
  | c :: cs => if isWhitespace c then skipWhitespace cs else c :: cs

/-- The value of a hexadecimal digit. -/
def hexDigit (c : Char) : Option Nat :=
  if '0' ≤ c ∧ c ≤ '9' then some (c.toNat - '0'.toNat)
  else if 'a' ≤ c ∧ c ≤ 'f' then some (c.toNat - 'a'.toNat + 10)
  else if 'A' ≤ c ∧ c ≤ 'F' then some (c.toNat - 'A'.toNat + 10)
  else none

/-- The code unit written `ꯍ`. -/
def hex4 (a b c d : Char) : Option Nat :=
  match hexDigit a, hexDigit b, hexDigit c, hexDigit d with
  | some w, some x, some y, some z => some (((w * 16 + x) * 16 + y) * 16 + z)
  | _, _, _, _ => none

/-- The code unit of a one-letter escape `\"`, `\\`, `\/`, `\b`, `\f`, `\n`, `\r`, `\t`. -/
def escape (e : Char) : Option Nat :=
  if e = '"' then some 0x22 else if e = '\\' then some 0x5C else if e = '/' then some 0x2F
  else if e = 'b' then some 0x08 else if e = 'f' then some 0x0C else if e = 'n' then some 0x0A
  else if e = 'r' then some 0x0D else if e = 't' then some 0x09 else none

/-- Put code units in front of the rest of a string literal, if that rest was read. -/
def prepend (us : Utf16) : Option (Utf16 × List Char) → Option (Utf16 × List Char)
  | some (vs, rest) => some (us ++ vs, rest)
  | none => none

/-- A string literal after its opening quote: characters up to the closing quote, with the
one-letter escapes and `\uXXXX`; a raw control character (below U+0020) is an error. Returns the
decoded code units and the input after the closing quote. -/
def parseString : List Char → Option (Utf16 × List Char)
  | [] => none
  | '"' :: rest => some ([], rest)
  | '\\' :: 'u' :: a :: b :: c :: d :: rest =>
    match hex4 a b c d with
    | some u => prepend [u] (parseString rest)
    | none => none
  | '\\' :: e :: rest =>
    match escape e with
    | some u => prepend [u] (parseString rest)
    | none => none
  | ['\\'] => none
  | c :: rest =>
    if c.toNat < 0x20 then none else prepend (utf16 c) (parseString rest)

/-- A non-empty run of decimal digits, and what follows it. -/
def digits (cs : List Char) : Option (List Char × List Char) :=
  match cs.span Char.isDigit with
  | ([], _) => none
  | (ds, rest) => some (ds, rest)

/-- An optional leading character satisfying `p`, and what follows it. -/
def optional (p : Char → Bool) : List Char → List Char × List Char
  | [] => ([], [])
  | c :: rest => if p c then ([c], rest) else ([], c :: rest)

/-- The integer part of a number: a single `0`, or a non-empty run of digits. -/
def parseInteger (cs : List Char) : Option (List Char × List Char) :=
  match cs with
  | '0' :: rest => some (['0'], rest)
  | _ => digits cs

/-- An optional fraction: `.` and at least one digit. -/
def parseFraction (cs : List Char) : Option (List Char × List Char) :=
  match cs with
  | '.' :: rest =>
    match digits rest with
    | some (ds, rest₁) => some ('.' :: ds, rest₁)
    | none => none
  | _ => some ([], cs)

/-- An optional exponent: `e` or `E`, an optional sign, and at least one digit. -/
def parseExponent (cs : List Char) : Option (List Char × List Char) :=
  match cs with
  | e :: rest =>
    if e = 'e' ∨ e = 'E' then
      match optional (fun s => s = '+' ∨ s = '-') rest with
      | (sign, rest₁) =>
        match digits rest₁ with
        | some (ds, rest₂) => some (e :: sign ++ ds, rest₂)
        | none => none
    else some ([], cs)
  | [] => some ([], cs)

/-- A number literal: optional `-`, integer part, optional fraction, optional exponent. -/
def parseNumber (cs : List Char) : Option (List Char × List Char) :=
  match optional (fun s => s = '-') cs with
  | (sign, cs₁) =>
    match parseInteger cs₁ with
    | none => none
    | some (int, cs₂) =>
      match parseFraction cs₂ with
      | none => none
      | some (frac, cs₃) =>
        match parseExponent cs₃ with
        | none => none
        | some (exp, cs₄) => some (sign ++ int ++ frac ++ exp, cs₄)

mutual

/-- One JSON value at the head of the input (which starts with no whitespace); returns the value
and the rest of the input. The first argument bounds the recursion depth. -/
def parseValue : Nat → List Char → Option (Json × List Char)
  | 0, _ => none
  | fuel + 1, cs =>
    match cs with
    | 'n' :: 'u' :: 'l' :: 'l' :: rest => some (.null, rest)
    | 't' :: 'r' :: 'u' :: 'e' :: rest => some (.bool true, rest)
    | 'f' :: 'a' :: 'l' :: 's' :: 'e' :: rest => some (.bool false, rest)
    | '"' :: rest =>
      match parseString rest with
      | some (us, rest₁) => some (.str us, rest₁)
      | none => none
    | '[' :: rest =>
      match skipWhitespace rest with
      | ']' :: rest₁ => some (.arr [], rest₁)
      | rest₁ =>
        match parseElements fuel rest₁ with
        | some (items, rest₂) => some (.arr items, rest₂)
        | none => none
    | '{' :: rest =>
      match skipWhitespace rest with
      | '}' :: rest₁ => some (.obj [], rest₁)
      | rest₁ =>
        match parseMembers fuel rest₁ [] with
        | some (members, rest₂) => some (.obj members, rest₂)
        | none => none
    | _ =>
      match parseNumber cs with
      | some (literal, rest) => some (.num literal, rest)
      | none => none

/-- The elements of a non-empty array, up to and including the closing bracket. -/
def parseElements : Nat → List Char → Option (List Json × List Char)
  | 0, _ => none
  | fuel + 1, cs =>
    match parseValue fuel cs with
    | none => none
    | some (v, rest) =>
      match skipWhitespace rest with
      | ']' :: rest₁ => some ([v], rest₁)
      | ',' :: rest₁ =>
        match parseElements fuel (skipWhitespace rest₁) with
        | some (vs, rest₂) => some (v :: vs, rest₂)
        | none => none
      | _ => none

/-- The members of a non-empty object, up to and including the closing brace; a repeated name
overwrites the earlier value. -/
def parseMembers :
    Nat → List Char → List (Utf16 × Json) → Option (List (Utf16 × Json) × List Char)
  | 0, _, _ => none
  | fuel + 1, cs, acc =>
    match cs with
    | '"' :: rest =>
      match parseString rest with
      | none => none
      | some (key, rest₁) =>
        match skipWhitespace rest₁ with
        | ':' :: rest₂ =>
          match parseValue fuel (skipWhitespace rest₂) with
          | none => none
          | some (v, rest₃) =>
            match skipWhitespace rest₃ with
            | '}' :: rest₄ => some (JsMap.set acc key v, rest₄)
            | ',' :: rest₄ => parseMembers fuel (skipWhitespace rest₄) (JsMap.set acc key v)
            | _ => none
        | _ => none
    | _ => none

end

/-- `JSON.parse(text)`: the value of a text that is exactly one JSON value surrounded by optional
whitespace, a `SyntaxError` otherwise. The recursion bound `2 * text.length + 2` is never
reached: any larger bound gives the same result (`JSON.parseValue_fuel`). -/
def parse (text : String) : Except JsError Json :=
  match parseValue (2 * text.length + 2) (skipWhitespace text.toList) with
  | some (v, rest) => if skipWhitespace rest = [] then .ok v else .error .syntaxError
  | none => .error .syntaxError

end JSON

/-! ## The lead notifier and the tool dispatcher -/

/-- The `body` of an outbound SMS: the lead template of `sendQualifiedLeadNotification` filled
with the four property values it interpolates (`none` is `undefined`; the text their conversion
to a string produces is not modelled, only whether it returns), or a plain text. -/
inductive SmsBody where
  | lead (fullName phone city legalConcern : Option Json)
  | text (value : String)

/-- The argument of `client.messages.create`: `body` and `to` (here `to_`; `from` is always
`process.env.TWILIO_PHONE_NUMBER`). -/
structure Sms where
  body : SmsBody
  to_ : JsValue

/-- `toolCall.function`. -/
structure FunctionCall where
  name : String
  arguments : String
deriving DecidableEq, Repr

/-- A tool call issued by the assistant backend. -/
structure ToolCall where
  id : String
  function : FunctionCall
deriving DecidableEq, Repr

/-- The value returned by `handleFunctionCall`. -/
structure ToolOutput where
  tool_call_id : String
  output : String
deriving DecidableEq, Repr

/-- One call to an external collaborator, as recorded in the call log. -/
inductive Call where
  | threadsCreate
  | threadMessagesCreate (threadId : String) (content : JsValue)
  | runsCreate (threadId : String)
  | runsRetrieve (threadId runId : String)
  | submitToolOutputs (threadId runId : String) (toolOutputs : List ToolOutput)
  | threadMessagesList (threadId : String)
  | twilioMessagesCreate (sms : Sms)

/-- `LEAD_NOTIFICATION_PHONE` (`src/app.js` line 33). -/
def LEAD_NOTIFICATION_PHONE : String := "+17478375004"

mutual

/-- Whether the conversion of a parsed value to a string, which a template literal applies to what
it interpolates, returns. An object is converted by its `toString` method: `Object.prototype`
provides one unless the object has an own property named `toString`, which after `JSON.parse` is
never a function, and then the conversion throws a `TypeError`. An array is converted by joining
the conversions of its elements. Every other value converts. -/
def Json.convertible : Json → Bool
  | .obj members => !(JsMap.has members (toUtf16 "toString"))
  | .arr items => Json.allConvertible items
  | _ => true

/-- Whether every element of an array converts to a string. -/
def Json.allConvertible : List Json → Bool
  | [] => true
  | v :: vs => Json.convertible v && Json.allConvertible vs

end

/-- Whether the interpolation `${leadInfo.name}` returns, for the value read from the property:
`undefined` converts to a string like any primitive. -/
def Json.interpolates (v : Option Json) : Bool :=
  match v with
  | none => true
  | some w => w.convertible

/-- Whether the four interpolations of the lead template return. -/
def Json.leadInterpolates (leadInfo : Json) : Bool :=
  Json.interpolates (leadInfo.prop "fullName") && Json.interpolates (leadInfo.prop "phone")
    && Json.interpolates (leadInfo.prop "city")
    && Json.interpolates (leadInfo.prop "legalConcern")

/-- The message `sendQualifiedLeadNotification` passes to `client.messages.create`. -/
def leadMessage (leadInfo : Json) : Sms :=
  { body := .lead (leadInfo.prop "fullName") (leadInfo.prop "phone") (leadInfo.prop "city")
      (leadInfo.prop "legalConcern"),
    to_ := .str LEAD_NOTIFICATION_PHONE }

/-- `sendQualifiedLeadNotification` (`src/app.js` lines 68-88). `create` is the outcome of
`client.messages.create` on a given message. Building the message body reads four properties of
`leadInfo`, which throws a `TypeError` when `leadInfo` is `null`, and converts each to a string,
which throws a `TypeError` when the value cannot be converted; the `catch` block logs and
rethrows. Returns the message sid, and the collaborator calls made. -/
def sendQualifiedLeadNotification (create : Sms → Except JsError String) (leadInfo : Json) :
    Except JsError String × List Call :=
  match leadInfo with
  | .null => (.error .typeError, [])
  | _ =>
    if leadInfo.leadInterpolates then
      (create (leadMessage leadInfo), [Call.twilioMessagesCreate (leadMessage leadInfo)])
    else (.error .typeError, [])

/-- `handleFunctionCall` (`src/app.js` lines 91-119). `JSON.parse` runs before the `switch` and
outside any `try`, so its `SyntaxError` propagates; the `try`/`catch` of the
`send_qualified_lead` case turns a failure of the notifier into the failure text. -/
def handleFunctionCall (create : Sms → Except JsError String) (toolCall : ToolCall) :
    Except JsError ToolOutput × List Call :=
  let functionName := toolCall.function.name
  match JSON.parse toolCall.function.arguments with
  | .error e => (.error e, [])
  | .ok functionArgs =>
    if functionName = "send_qualified_lead" then
      match sendQualifiedLeadNotification create functionArgs with
      | (.ok _, calls) =>
        (.ok { tool_call_id := toolCall.id,
               output := "Lead information has been successfully sent to the law firm. Thank you for providing all the necessary details!" },
         calls)
      | (.error _, calls) =>
        (.ok { tool_call_id := toolCall.id,
               output := "There was an error sending the lead information. Please try again." },
         calls)
    else
      (.ok { tool_call_id := toolCall.id, output := "Unknown function called." }, [])

/-! ## The time-of-day helper -/

/-- `getDaySuffix` (`src/app.js` lines 164-176). `%` is JavaScript's remainder, which truncates
towards zero. -/
def getDaySuffix (day : Int) : String :=
  if day > 3 ∧ day < 21 then "th"
  else
    match Int.tmod day 10 with
    | 1 => "st"
    | 2 => "nd"
    | 3 => "rd"
    | _ => "th"

/-! ## The `/lionhead-sms` handler -/

/-- The run object returned by `openai.beta.threads.runs.retrieve`: its `status`, the tool calls
`required_action.submit_tool_outputs.tool_calls` (`none` when `required_action` is absent), and
`last_error`. -/
structure Run where
  status : String
  required_action : Option (List ToolCall)
  last_error : Option String

/-- One element of a message's `content` array; `text` is `text.value`, `none` when the part has
no `text` member (an image part, for example). -/
structure ContentPart where
  text : Option String

/-- One element of the `data` array returned by `openai.beta.threads.messages.list`. -/
structure Message where
  role : String
  content : List ContentPart

/-- The external collaborators, as the outcome of each call the handler can make. The `Nat`
argument of `runsRetrieve` and of `twilioMessagesCreate` is the number of earlier calls to it in
the same request, so that successive calls can answer differently. -/
structure Collaborators where
  threadsCreate : Except JsError String
  threadMessagesCreate : String → JsValue → Except JsError Unit
  runsCreate : String → Except JsError String
  runsRetrieve : Nat → String → String → Except JsError Run
  submitToolOutputs : String → String → List ToolOutput → Except JsError Unit
  threadMessagesList : String → Except JsError (List Message)
  twilioMessagesCreate : Nat → Sms → Except JsError String

/-- The HTTP responses of the handler: `400` with `error` and `receivedFormat`, `400` with `error`
only, `200` with `success: true`, `message` and `messageId`, and `500` with `success: false` and
the message of the caught error. -/
inductive Response where
  | unrecognized (receivedFormat : List String)
  | required
  | success (message messageId : String)
  | failure (error : JsError)

/-- The HTTP status code of a response. -/
def Response.status : Response → Nat
  | .unrecognized _ => 400
  | .required => 400
  | .success _ _ => 200
  | .failure _ => 500

/-- A key of the session store, up to the equality a `Map` uses (SameValueZero): a primitive value
is a key by its value, an object or an array by its identity, here the address it was allocated
at. -/
inductive MapKey where
  | value (v : JsValue)
  | object (address : Nat)
deriving DecidableEq

/-- An address above every address among the keys of the store: where the next object is
allocated. -/
def freshAddress : JsMap MapKey Context → Nat
  | [] => 0
  | (.object address, _) :: rest => max (address + 1) (freshAddress rest)
  | (.value _, _) :: rest => freshAddress rest

/-- The phone number of a request as a key of the store. A primitive is its own key. An object or
an array was built while parsing this request, so it is identical to no key already in the
store. -/
def sessionKey (conversationContexts : JsMap MapKey Context) (phone_number : JsValue) : MapKey :=
  match phone_number with
  | .arr _ => .object (freshAddress conversationContexts)
  | .obj _ => .object (freshAddress conversationContexts)
  | v => .value v

/-- The state a request works on: the session store, the log of collaborator calls made so far,
and the number of `runs.retrieve` and of `client.messages.create` calls made so far. -/
structure HandlerState where
  conversationContexts : JsMap MapKey Context
  calls : List Call
  retrieves : Nat
  sends : Nat

/-- How a piece of the handler ends: with a value, with a thrown exception, or still inside a
polling loop when the allowed number of iterations is used up. -/
inductive Step (α : Type) where
  | done (a : α)
  | raised (e : JsError)
  | waiting

/-- A piece of the handler: from a state to how it ends and the state then. -/
def Handler (α : Type) : Type := HandlerState → Step α × HandlerState

namespace Handler

/-- Return a value. -/
def pure {α : Type} (a : α) : Handler α := fun s => (.done a, s)

/-- Sequencing: an exception, or a loop still waiting, skips the rest. -/
def bind {α β : Type} (m : Handler α) (f : α → Handler β) : Handler β := fun s =>
  match m s with
  | (.done a, s₁) => f a s₁
  | (.raised e, s₁) => (.raised e, s₁)
  | (.waiting, s₁) => (.waiting, s₁)

instance : Monad Handler where
  pure := Handler.pure
  bind := Handler.bind

/-- Throw an exception, or return normally. -/
def ofExcept {α : Type} (r : Except JsError α) : Handler α := fun s =>
  match r with
  | .ok a => (.done a, s)
  | .error e => (.raised e, s)

/-- Call a collaborator: log the call, then return its value or throw its error. -/
def call {α : Type} (c : Call) (outcome : Except JsError α) : Handler α := fun s =>
  ofExcept outcome { s with calls := s.calls ++ [c] }

end Handler

/-- The payload recognition of `src/app.js` lines 184-200: `some (message, phone_number)` for the
first recognised shape, `none` when neither shape is recognised. -/
def extractMessage (body : JsValue) : Except JsError (Option (Option JsValue × Option JsValue)) := do
  let customData ← body.getProp "customData"
  let customMessage ←
    match customData with
    | some v => if JsValue.truthy customData then v.getProp "message" else .ok none
    | none => .ok none
  if JsValue.truthy customMessage then
    let phone ← body.getProp "phone"
    .ok (some (customMessage, phone))
  else
    let Body ← body.getProp "Body"
    let From ← body.getProp "From"
    if JsValue.truthy Body && JsValue.truthy From then
      .ok (some (Body, From))
    else
      .ok none

/-- The test `!context.threadId` negated: a thread identifier that is neither `null` nor `""`. -/
def hasThread (threadId : Option String) : Bool :=
  match threadId with
  | some id => decide (id ≠ "")
  | none => false

/-- The statuses on which the polling loops keep waiting. -/
def isWaiting (status : String) : Bool :=
  status = "running" ∨ status = "queued" ∨ status = "in_progress"

/-- The call `getOrCreateContext(normalizedPhoneNumber)` on the store of the state. -/
def lookupContext (now₁ now₂ : Int) (phoneNumber : MapKey) : Handler (Option Context) := fun s =>
  let r := getOrCreateContext now₁ now₂ s.conversationContexts phoneNumber
  (.done r.1, { s with conversationContexts := r.2 })

/-- The assignment `context.threadId = thread.id` (`src/app.js` line 220); `context` is the
object held by the store under `phoneNumber`. -/
def assignThread (phoneNumber : MapKey) (context : Context) (id : String) : Handler Unit :=
  fun s =>
    (.done (),
     { s with
       conversationContexts :=
         JsMap.set s.conversationContexts phoneNumber { context with threadId := some id } })

/-- The thread of the session (`src/app.js` lines 217-222): when `context.threadId` is falsy a thread
is created and its id is stored in the context object, which is the one held by the store. Returns
`context.threadId` as it stands afterwards. -/
def ensureThread (c : Collaborators) (phoneNumber : MapKey) (context : Option Context) :
    Handler String :=
  match context with
  | none => Handler.ofExcept (.error .typeError)
  | some context =>
    if !(hasThread context.threadId) then do
      let id ← Handler.call .threadsCreate c.threadsCreate
      assignThread phoneNumber context id
      Handler.pure id
    else
      match context.threadId with
      | some id => Handler.pure id
      | none => Handler.ofExcept (.error .typeError)

/-- One `openai.beta.threads.runs.retrieve(context.threadId, run.id)`. -/
def retrieveRun (c : Collaborators) (threadId runId : String) : Handler Run := fun s =>
  Handler.ofExcept (c.runsRetrieve s.retrieves threadId runId)
    { s with calls := s.calls ++ [.runsRetrieve threadId runId], retrieves := s.retrieves + 1 }

/-- The polling loop (`src/app.js` lines 243-257 and 290-304): while the status is `running`,
`queued` or `in_progress`, wait a second and retrieve the run again. The loop has no bound in the
source; the first argument is the number of iterations after which the model stops watching it. -/
def pollWhile (c : Collaborators) (threadId runId : String) : Nat → Run → Handler Run
  | 0, runStatus => if isWaiting runStatus.status then fun s => (.waiting, s) else Handler.pure runStatus
  | fuel + 1, runStatus =>
    if isWaiting runStatus.status then do
      let runStatus ← retrieveRun c threadId runId
      pollWhile c threadId runId fuel runStatus
    else Handler.pure runStatus

/-- One `await handleFunctionCall(toolCall)`, with the messaging client of the state. -/
def dispatch (c : Collaborators) (toolCall : ToolCall) : Handler ToolOutput := fun s =>
  match handleFunctionCall (c.twilioMessagesCreate s.sends) toolCall with
  | (result, calls) =>
    Handler.ofExcept result { s with calls := s.calls ++ calls, sends := s.sends + calls.length }

/-- The loop over the tool calls (`src/app.js` lines 270-273): dispatch each in order and collect the
outputs; an exception stops the loop. -/
def handleToolCalls (c : Collaborators) : List ToolCall → Handler (List ToolOutput)
  | [] => Handler.pure []
  | toolCall :: rest => do
    let output ← dispatch c toolCall
    let toolOutputs ← handleToolCalls c rest
    Handler.pure (output :: toolOutputs)

/-- The session and its thread (`src/app.js` lines 211-222): look the context up, create the
thread when there is none. Returns `context.threadId`. The phone number is passed on unchanged;
`normalizedPhoneNumber` is the key it is in the store as the request finds it. -/
def openThread (c : Collaborators) (now₁ now₂ : Int) (phone_number : JsValue) :
    Handler String := fun s =>
  let normalizedPhoneNumber := sessionKey s.conversationContexts phone_number
  (lookupContext now₁ now₂ normalizedPhoneNumber >>= fun context =>
    ensureThread c normalizedPhoneNumber context) s

/-- The run on the thread (`src/app.js` lines 224-307): post the user message, start a run, poll it,
and when it stops on `requires_action` dispatch the tool calls, submit their outputs and poll
again, once. Returns the last `runStatus`. -/
def runThread (c : Collaborators) (fuel : Nat) (message : JsValue) (threadId : String) :
    Handler Run := do
  Handler.call (.threadMessagesCreate threadId message) (c.threadMessagesCreate threadId message)
  let runId ← Handler.call (.runsCreate threadId) (c.runsCreate threadId)
  let runStatus ← retrieveRun c threadId runId
  let runStatus ← pollWhile c threadId runId fuel runStatus
  if runStatus.status = "requires_action" then
    match runStatus.required_action with
    | none => Handler.ofExcept (.error .typeError)
    | some toolCalls => do
      let toolOutputs ← handleToolCalls c toolCalls
      Handler.call (.submitToolOutputs threadId runId toolOutputs)
        (c.submitToolOutputs threadId runId toolOutputs)
      let runStatus ← retrieveRun c threadId runId
      pollWhile c threadId runId fuel runStatus
  else
    Handler.pure runStatus

/-- The handler from the session lookup to the final run status (`src/app.js` lines 211-307).
Returns `context.threadId` and the last `runStatus`. -/
def runAssistant (c : Collaborators) (fuel : Nat) (now₁ now₂ : Int)
    (message phone_number : JsValue) : Handler (String × Run) := do
  let threadId ← openThread c now₁ now₂ phone_number
  let runStatus ← runThread c fuel message threadId
  Handler.pure (threadId, runStatus)

/-- The reply text for a final run status (`src/app.js` lines 259 and 309-326). On `completed` the
latest message is `messages.data[0]`; reading `role` of a missing message, or `text.value` of a
missing content part or of a part without `text`, throws a `TypeError`. -/
def responseTextFor (c : Collaborators) (threadId : String) (runStatus : Run) : Handler String :=
  if runStatus.status = "completed" then do
    let messages ← Handler.call (.threadMessagesList threadId) (c.threadMessagesList threadId)
    match messages with
    | [] => Handler.ofExcept (.error .typeError)
    | latestMessage :: _ =>
      if latestMessage.role = "assistant" then
        match latestMessage.content with
        | ContentPart.mk (some value) :: _ => Handler.pure value
        | _ => Handler.ofExcept (.error .typeError)
      else Handler.pure ""
  else
    Handler.pure "I'm having trouble processing your request right now. Please try again."

/-- The `client.messages.create` call that sends the reply (`src/app.js` lines 331-335). -/
def sendReply (c : Collaborators) (responseText : String) (phoneNumber : JsValue) :
    Handler String := fun s =>
  Handler.ofExcept
    (c.twilioMessagesCreate s.sends { body := .text responseText, to_ := phoneNumber })
    { s with
      calls := s.calls ++ [.twilioMessagesCreate { body := .text responseText, to_ := phoneNumber }],
      sends := s.sends + 1 }

/-- The handler after the payload checks (`src/app.js` lines 211-342), which the specification
calls the conversation driver. -/
def handleInboundMessage (c : Collaborators) (fuel : Nat) (now₁ now₂ : Int)
    (message phone_number : JsValue) : Handler Response := do
  let (threadId, runStatus) ← runAssistant c fuel now₁ now₂ message phone_number
  let responseText ← responseTextFor c threadId runStatus
  let sid ← sendReply c responseText phone_number
  Handler.pure (.success responseText sid)

/-- What one request leaves behind: the response (`none` while a polling loop is still waiting),
the session store, and the collaborator calls made, in order. -/
structure Outcome where
  response : Option Response
  conversationContexts : JsMap MapKey Context
  calls : List Call

/-- The state in which a request starts on a given store: no collaborator call made yet. -/
def HandlerState.initial (conversationContexts : JsMap MapKey Context) : HandlerState :=
  { conversationContexts := conversationContexts, calls := [], retrieves := 0, sends := 0 }

/-- The outer `try`/`catch` of the handler (`src/app.js` lines 180 and 343-349): run the body from
the given store; a thrown error becomes the `500` response. -/
def respond (body : Handler Response) (conversationContexts : JsMap MapKey Context) : Outcome :=
  match body (HandlerState.initial conversationContexts) with
  | (.done r, s) =>
    { response := some r, conversationContexts := s.conversationContexts, calls := s.calls }
  | (.raised e, s) =>
    { response := some (.failure e), conversationContexts := s.conversationContexts,
      calls := s.calls }
  | (.waiting, s) =>
    { response := none, conversationContexts := s.conversationContexts, calls := s.calls }

/-- The body of the `/lionhead-sms` handler (`src/app.js` lines 181-342) on the parsed request body
`req.body`. -/
def lionheadSmsBody (c : Collaborators) (fuel : Nat) (now₁ now₂ : Int) (body : JsValue) :
    Handler Response := do
  match ← Handler.ofExcept (extractMessage body) with
  | none =>
    let receivedFormat ← Handler.ofExcept (JsValue.keys body)
    Handler.pure (.unrecognized receivedFormat)
  | some (message, phone_number) =>
    if !(JsValue.truthy message) || !(JsValue.truthy phone_number) then
      Handler.pure .required
    else
      match message, phone_number with
      | some message, some phone_number =>
        handleInboundMessage c fuel now₁ now₂ message phone_number
      | _, _ => Handler.pure .required

/-- The `/lionhead-sms` handler (`src/app.js` lines 179-350) for one request, run from start to
finish on the given session store. -/
def lionheadSms (c : Collaborators) (fuel : Nat) (now₁ now₂ : Int)
    (conversationContexts : JsMap MapKey Context) (body : JsValue) : Outcome :=
  respond (lionheadSmsBody c fuel now₁ now₂ body) conversationContexts

/-! ## Notions used in the statements -/

/-- The state `s₁` comes from `s` by steps that leave the session store alone and create no
thread. -/
def HandlerState.Inert (s s₁ : HandlerState) : Prop :=
  s₁.conversationContexts = s.conversationContexts ∧
    (Call.threadsCreate ∈ s₁.calls → Call.threadsCreate ∈ s.calls)

/-- A piece of the handler that leaves the session store alone and creates no thread. -/
def Handler.Inert {α : Type} (m : Handler α) : Prop := ∀ s, HandlerState.Inert s (m s).2

/-- A run object with the given status and nothing else. -/
def Run.ofStatus (status : String) : Run :=
  { status := status, required_action := none, last_error := none }

/-- Example collaborators: every call succeeds, the run is `completed` at the first retrieval,
and the thread holds the single assistant message `"Hi there"`. -/
def exampleBackend : Collaborators :=
  { threadsCreate := .ok "thread_1"
    threadMessagesCreate := fun _ _ => .ok ()
    runsCreate := fun _ => .ok "run_1"
    runsRetrieve := fun _ _ _ => .ok (Run.ofStatus "completed")
    submitToolOutputs := fun _ _ _ => .ok ()
    threadMessagesList := fun _ =>
      .ok [{ role := "assistant", content := [ContentPart.mk (some "Hi there")] }]
    twilioMessagesCreate := fun _ _ => .ok "SM1" }

/-- Example collaborators whose backend refuses to start a run; everything else is as in
`exampleBackend`. -/
def failingBackend : Collaborators :=
  { exampleBackend with runsCreate := fun _ => .error (.rejected "backend unavailable") }

/-- Example collaborators whose run ends `failed`, with an error detail. -/
def failedBackend : Collaborators :=
  { exampleBackend with
    runsRetrieve := fun _ _ _ =>
      .ok { status := "failed", required_action := none,
            last_error := some "rate_limit_exceeded" } }

/-- Example collaborators whose run asks for tool outputs (none, in fact) each time it is
retrieved. -/
def insistingBackend : Collaborators :=
  { exampleBackend with
    runsRetrieve := fun _ _ _ =>
      .ok { status := "requires_action", required_action := some [], last_error := none } }

/-- Example collaborators whose thread comes back empty. -/
def emptyThreadBackend : Collaborators :=
  { exampleBackend with threadMessagesList := fun _ => .ok [] }

/-- Example collaborators whose latest message is an assistant message that starts with an image
part, followed by a text part. -/
def imageFirstBackend : Collaborators :=
  { exampleBackend with
    threadMessagesList := fun _ =>
      .ok [{ role := "assistant",
             content := [ContentPart.mk none, ContentPart.mk (some "Here is the chart.")] }] }

/-- The request body of a webhook-native inbound message. -/
def helloBody : JsValue := .obj [("Body", .str "Hello"), ("From", .str "+15550001111")]

/-! # Theorems -/

/-! ## Lemmas on `JsMap` -/

namespace JsMap

variable {K V : Type} [DecidableEq K]

theorem get_eq_none_of_not_mem (m : JsMap K V) (k : K) (h : k ∉ m.map Prod.fst) :
    get m k = none := by
  induction m with
  | nil => rfl
  | cons e rest ih =>
    obtain ⟨k', v⟩ := e
    simp only [List.map_cons, List.mem_cons, not_or] at h
    simp only [get]
    rw [if_neg (fun hk => h.1 hk.symm)]
    exact ih h.2

theorem mem_of_get (m : JsMap K V) (k : K) (v : V) (h : get m k = some v) : (k, v) ∈ m := by
  induction m with
  | nil => simp [get] at h
  | cons e rest ih =>
    obtain ⟨k', v'⟩ := e
    simp only [get] at h
    by_cases hk : k' = k
    · rw [if_pos hk] at h
      cases h
      subst hk
      exact List.mem_cons_self _ _
    · rw [if_neg hk] at h
      exact List.mem_cons_of_mem _ (ih h)

theorem get_of_mem (m : JsMap K V) (hm : WF m) (k : K) (v : V) (h : (k, v) ∈ m) :
    get m k = some v := by
  induction m with
  | nil => simp at h
  | cons e rest ih =>
    obtain ⟨k', v'⟩ := e
    have hm' : k' ∉ rest.map Prod.fst ∧ WF rest := by
      simpa [WF] using hm
    simp only [get]
    rcases List.mem_cons.1 h with h | h
    · cases h
      simp
    · have hne : k' ≠ k := by
        intro hk
        subst hk
        exact hm'.1 (List.mem_map_of_mem Prod.fst h)
      rw [if_neg hne]
      exact ih hm'.2 h

theorem get_eq_some_iff (m : JsMap K V) (hm : WF m) (k : K) (v : V) :
    get m k = some v ↔ (k, v) ∈ m :=
  ⟨mem_of_get m k v, get_of_mem m hm k v⟩

omit [DecidableEq K] in
theorem wf_filter (m : JsMap K V) (hm : WF m) (p : K × V → Bool) : WF (m.filter p) := by
  unfold WF at *
  exact List.Nodup.sublist (List.Sublist.map _ (List.filter_sublist m)) hm

theorem get_filter (m : JsMap K V) (hm : WF m) (p : K × V → Bool) (k : K) :
    get (m.filter p) k = (get m k).filter (fun v => p (k, v)) := by
  cases hg : get m k with
  | none =>
    cases hf : get (m.filter p) k with
    | none => rfl
    | some v =>
      have h1 := mem_of_get _ _ _ hf
      have h2 := get_of_mem m hm k v (List.mem_filter.1 h1).1
      rw [hg] at h2
      cases h2
  | some v =>
    have hmem := mem_of_get _ _ _ hg
    by_cases hp : p (k, v) = true
    · have : (k, v) ∈ m.filter p := List.mem_filter.2 ⟨hmem, hp⟩
      rw [get_of_mem _ (wf_filter m hm p) k v this]
      simp [Option.filter, hp]
    · cases hf : get (m.filter p) k with
      | none => simp [Option.filter, hp]
      | some v' =>
        have h1 := List.mem_filter.1 (mem_of_get _ _ _ hf)
        have h2 := get_of_mem m hm k v' h1.1
        rw [hg] at h2
        cases h2
        exact absurd h1.2 hp

theorem get_replace_self (m : JsMap K V) (k : K) (v : V) (h : has m k = true) :
    get (replace m k v) k = some v := by
  induction m with
  | nil => simp [has, get] at h
  | cons e rest ih =>
    obtain ⟨k', v'⟩ := e
    by_cases hk : k' = k
    · simp [replace, get, hk]
    · simp only [has, get, if_neg hk] at h
      simp only [replace, if_neg hk, get]
      exact ih h

theorem get_replace_of_ne (m : JsMap K V) (k k' : K) (v : V) (h : k' ≠ k) :
    get (replace m k v) k' = get m k' := by
  induction m with
  | nil => rfl
  | cons e rest ih =>
    obtain ⟨k₀, v₀⟩ := e
    by_cases hk : k₀ = k
    · subst hk
      have : ¬ k₀ = k' := fun e => h e.symm
      simp [replace, get, this]
    · simp only [replace, if_neg hk, get, ih]

theorem length_replace (m : JsMap K V) (k : K) (v : V) : (replace m k v).length = m.length := by
  induction m with
  | nil => rfl
  | cons e rest ih =>
    obtain ⟨k₀, v₀⟩ := e
    by_cases hk : k₀ = k
    · simp [replace, hk]
    · simp [replace, hk, ih]

theorem get_append_single (m : JsMap K V) (k k' : K) (v : V) :
    get (m ++ [(k, v)]) k' = if has m k' then get m k' else if k = k' then some v else none := by
  induction m with
  | nil => simp [get, has]
  | cons e rest ih =>
    obtain ⟨k₀, v₀⟩ := e
    by_cases hk : k₀ = k'
    · simp [get, has, hk]
    · simp only [List.cons_append, get, if_neg hk, has] at ih ⊢
      exact ih

theorem get_set_self (m : JsMap K V) (k : K) (v : V) : get (set m k v) k = some v := by
  unfold set
  by_cases h : has m k = true
  · rw [if_pos h]
    exact get_replace_self m k v h
  · rw [if_neg h, get_append_single]
    simp [h]

theorem get_set_of_ne (m : JsMap K V) (k k' : K) (v : V) (h : k' ≠ k) :
    get (set m k v) k' = get m k' := by
  unfold set
  by_cases hh : has m k = true
  · rw [if_pos hh]
    exact get_replace_of_ne m k k' v h
  · rw [if_neg hh, get_append_single]
    have : ¬ k = k' := fun e => h e.symm
    by_cases h' : has m k' = true
    · simp [h']
    · simp only [h', this, if_false]
      simp only [has, Option.isSome_iff_exists, not_exists] at h'
      cases hg : get m k' with
      | none => simp
      | some v' => exact absurd hg (h' v')

theorem size_set (m : JsMap K V) (k : K) (v : V) :
    size (set m k v) = if has m k then size m else size m + 1 := by
  unfold set size
  by_cases h : has m k = true
  · simp [h, length_replace]
  · simp [h]

end JsMap

/-! ## The session store -/

section StoreTheorems

variable {K : Type} [DecidableEq K]

theorem foldl_delete_eq_filter (oneDayAgo : Int) (entries acc : JsMap K Context) :
    entries.foldl
      (fun contexts entry =>
        if entry.2.lastUpdated < oneDayAgo then JsMap.delete contexts entry.1 else contexts) acc
    = acc.filter (fun e => decide (∀ x ∈ entries, x.2.lastUpdated < oneDayAgo → e.1 ≠ x.1)) := by
  induction entries generalizing acc with
  | nil => simp
  | cons x rest ih =>
    rw [List.foldl_cons, ih]
    by_cases hx : x.2.lastUpdated < oneDayAgo
    · rw [if_pos hx]
      unfold JsMap.delete
      rw [List.filter_filter]
      apply List.filter_congr
      intro e _
      simp only [List.mem_cons, forall_eq_or_imp, hx, true_implies, Bool.decide_and,
        Bool.and_comm]
    · rw [if_neg hx]
      apply List.filter_congr
      intro e _
      simp only [List.mem_cons, forall_eq_or_imp, hx, false_implies, true_and]

theorem cleanupExpiredContexts_eq_filter (now : Int) (m : JsMap K Context) (hm : JsMap.WF m) :
    cleanupExpiredContexts now m
      = m.filter (fun e => decide (¬ e.2.lastUpdated < now - 86400000)) := by
  unfold cleanupExpiredContexts
  simp only []
  rw [foldl_delete_eq_filter]
  apply List.filter_congr
  intro e he
  rw [decide_eq_decide]
  constructor
  · intro h hlt
    exact h e he hlt rfl
  · intro h x hx hlt hk
    obtain ⟨k, c⟩ := e
    obtain ⟨k', c'⟩ := x
    simp only at hk
    subst hk
    have h1 := JsMap.get_of_mem m hm k c he
    have h2 := JsMap.get_of_mem m hm k c' hx
    rw [h1] at h2
    cases h2
    exact h hlt

theorem get_cleanupExpiredContexts (now : Int) (m : JsMap K Context) (hm : JsMap.WF m) (k : K) :
    JsMap.get (cleanupExpiredContexts now m) k
      = (JsMap.get m k).filter (fun c => decide (¬ c.lastUpdated < now - 86400000)) := by
  rw [cleanupExpiredContexts_eq_filter now m hm, JsMap.get_filter m hm]

/-- C3: `cleanupExpiredContexts` run at clock value `now` keeps, in order, exactly the entries
whose `lastUpdated` is not strictly below `now - 86400000`: a session with
`lastUpdated < now - 86400000` is gone, every other session is still present with the same
contents, and no session appears. In particular a session is removed when
`now = lastUpdated + 24h + 1ms` and kept when `now = lastUpdated + 24h - 1ms` or
`now = lastUpdated + 24h`. -/
theorem cleanupExpiredContexts_spec (now : Int) (m : JsMap K Context) (hm : JsMap.WF m) :
    cleanupExpiredContexts now m
        = m.filter (fun e => decide (¬ e.2.lastUpdated < now - 86400000)) ∧
    (∀ k c, JsMap.get m k = some c →
      JsMap.get (cleanupExpiredContexts now m) k
        = if c.lastUpdated < now - 86400000 then none else some c) ∧
    (∀ k, JsMap.get m k = none → JsMap.get (cleanupExpiredContexts now m) k = none) ∧
    (∀ k c, JsMap.get m k = some c → now = c.lastUpdated + 86400000 + 1 →
      JsMap.get (cleanupExpiredContexts now m) k = none) ∧
    (∀ k c, JsMap.get m k = some c →
      now = c.lastUpdated + 86400000 - 1 ∨ now = c.lastUpdated + 86400000 →
      JsMap.get (cleanupExpiredContexts now m) k = some c) := by
  refine ⟨cleanupExpiredContexts_eq_filter now m hm, ?_, ?_, ?_, ?_⟩
  · intro k c hg
    rw [get_cleanupExpiredContexts now m hm, hg]
    by_cases h : c.lastUpdated < now - 86400000 <;> simp [Option.filter, h]
  · intro k hg
    rw [get_cleanupExpiredContexts now m hm, hg]
    rfl
  · intro k c hg hnow
    rw [get_cleanupExpiredContexts now m hm, hg]
    have h : c.lastUpdated < now - 86400000 := by omega
    simp [Option.filter, h]
  · intro k c hg hnow
    rw [get_cleanupExpiredContexts now m hm, hg]
    have h : ¬ c.lastUpdated < now - 86400000 := by omega
    simp [Option.filter, h]

/-- A store with three sessions, swept at `now = 100000000`: `"+15550000001"` is one millisecond
past the 24 hours, `"+15550000002"` is exactly at 24 hours, `"+15550000003"` is one millisecond
short of them. -/
theorem cleanupExpiredContexts_spec_witness :
    cleanupExpiredContexts 100000000
        [("+15550000001", { threadId := some "thread_a", createdAt := 5, lastUpdated := 13599999 }),
         ("+15550000002", { threadId := none, createdAt := 7, lastUpdated := 13600000 }),
         ("+15550000003", { threadId := some "thread_c", createdAt := 9, lastUpdated := 13600001 })]
      = [("+15550000002", { threadId := none, createdAt := 7, lastUpdated := 13600000 }),
         ("+15550000003", { threadId := some "thread_c", createdAt := 9, lastUpdated := 13600001 })] := by
  rw [(cleanupExpiredContexts_spec 100000000 _ (by unfold JsMap.WF; decide)).1]
  decide

theorem getOrCreateContext_of_get (now₁ now₂ : Int) (m : JsMap K Context) (k : K) (c : Context)
    (hk : JsMap.get m k = some c) :
    getOrCreateContext now₁ now₂ m k =
      (some { threadId := c.threadId, createdAt := c.createdAt, lastUpdated := now₁ },
       JsMap.set m k { threadId := c.threadId, createdAt := c.createdAt, lastUpdated := now₁ }) := by
  have hhas : JsMap.has m k = true := by simp [JsMap.has, hk]
  simp [getOrCreateContext, hhas, hk, JsMap.get_set_self]

/-- C4 as stated fails: when the clock advances between the two `Date.now()` calls of the creation
branch (here from 1000 to 1001), the new session has `createdAt = 1000` and
`lastUpdated = 1001`. -/
theorem getOrCreateContext_new_createdAt_ne_lastUpdated :
    (getOrCreateContext 1000 1001 ([] : JsMap String Context) "+15550001111").1
        = some { threadId := none, createdAt := 1000, lastUpdated := 1001 } ∧
    ((getOrCreateContext 1000 1001 ([] : JsMap String Context) "+15550001111").1.map
        (fun c => decide (c.createdAt = c.lastUpdated))) = some false := by
  decide

/-- C4 (amended): for a conversation identifier not present in the store, `getOrCreateContext`
appends and returns a session whose `threadId` is null, whose `createdAt` is the first clock
reading and whose `lastUpdated` is the second clock reading of the call (so the two are equal
whenever the clock does not advance between the two reads, and `createdAt ≤ lastUpdated` whenever
the clock is non-decreasing); every other session is unchanged. -/
theorem getOrCreateContext_new (now₁ now₂ : Int) (m : JsMap K Context) (k : K)
    (hk : JsMap.has m k = false) :
    (getOrCreateContext now₁ now₂ m k).1
        = some { threadId := none, createdAt := now₁, lastUpdated := now₂ } ∧
    (getOrCreateContext now₁ now₂ m k).2
        = m ++ [(k, { threadId := none, createdAt := now₁, lastUpdated := now₂ })] ∧
    JsMap.get (getOrCreateContext now₁ now₂ m k).2 k = (getOrCreateContext now₁ now₂ m k).1 ∧
    (∀ k', k' ≠ k → JsMap.get (getOrCreateContext now₁ now₂ m k).2 k' = JsMap.get m k') ∧
    (∀ c, (getOrCreateContext now₁ now₂ m k).1 = some c →
      c.threadId = none ∧ (now₁ = now₂ → c.createdAt = c.lastUpdated) ∧
      (now₁ ≤ now₂ → c.createdAt ≤ c.lastUpdated)) := by
  have hset : JsMap.set m k ({ threadId := none, createdAt := now₁, lastUpdated := now₂ } : Context)
      = m ++ [(k, { threadId := none, createdAt := now₁, lastUpdated := now₂ })] := by
    simp [JsMap.set, hk]
  have h2 : (getOrCreateContext now₁ now₂ m k).2
      = JsMap.set m k { threadId := none, createdAt := now₁, lastUpdated := now₂ } := by
    simp [getOrCreateContext, hk]
  have h1 : (getOrCreateContext now₁ now₂ m k).1
      = some { threadId := none, createdAt := now₁, lastUpdated := now₂ } := by
    simp [getOrCreateContext, hk, JsMap.get_set_self]
  refine ⟨h1, h2.trans hset, ?_, ?_, ?_⟩
  · rw [h1, h2, JsMap.get_set_self]
  · intro k' hne
    rw [h2, JsMap.get_set_of_ne _ _ _ _ hne]
  · intro c hc
    rw [h1] at hc
    cases hc
    exact ⟨rfl, fun h => h, fun h => h⟩

/-- First message from an unknown number, into a store holding one other session. -/
theorem getOrCreateContext_new_witness :
    (getOrCreateContext 1000 1001
        [("+15550002222", { threadId := some "thread_b", createdAt := 1, lastUpdated := 2 })]
        "+15550001111").1
      = some { threadId := none, createdAt := 1000, lastUpdated := 1001 } :=
  (getOrCreateContext_new 1000 1001
    [("+15550002222", { threadId := some "thread_b", createdAt := 1, lastUpdated := 2 })]
    "+15550001111" (by decide)).1

/-- C5: for a conversation identifier already present in the store, `getOrCreateContext` returns
that session with the same `threadId` and `createdAt` and with `lastUpdated` set to the clock
reading, which is at least the previous `lastUpdated` whenever the clock has not gone backwards;
the returned session is the one stored under the identifier, the number of sessions is unchanged
and the other sessions are untouched. -/
theorem getOrCreateContext_existing (now₁ now₂ : Int) (m : JsMap K Context) (k : K) (c : Context)
    (hk : JsMap.get m k = some c) :
    (getOrCreateContext now₁ now₂ m k).1
        = some { threadId := c.threadId, createdAt := c.createdAt, lastUpdated := now₁ } ∧
    JsMap.get (getOrCreateContext now₁ now₂ m k).2 k = (getOrCreateContext now₁ now₂ m k).1 ∧
    JsMap.size (getOrCreateContext now₁ now₂ m k).2 = JsMap.size m ∧
    (∀ k', k' ≠ k → JsMap.get (getOrCreateContext now₁ now₂ m k).2 k' = JsMap.get m k') ∧
    (c.lastUpdated ≤ now₁ →
      ∃ c', (getOrCreateContext now₁ now₂ m k).1 = some c' ∧ c.lastUpdated ≤ c'.lastUpdated) := by
  have hhas : JsMap.has m k = true := by simp [JsMap.has, hk]
  have h := getOrCreateContext_of_get now₁ now₂ m k c hk
  have h2 : (getOrCreateContext now₁ now₂ m k).2
      = JsMap.set m k { threadId := c.threadId, createdAt := c.createdAt, lastUpdated := now₁ } := by
    rw [h]
  have h1 : (getOrCreateContext now₁ now₂ m k).1
      = some { threadId := c.threadId, createdAt := c.createdAt, lastUpdated := now₁ } := by
    rw [h]
  refine ⟨h1, ?_, ?_, ?_, ?_⟩
  · rw [h1, h2, JsMap.get_set_self]
  · rw [h2, JsMap.size_set, hhas]
    rfl
  · intro k' hne
    rw [h2, JsMap.get_set_of_ne _ _ _ _ hne]
  · intro hle
    exact ⟨_, h1, hle⟩

/-- A second message from a known number, two seconds after the previous one. -/
theorem getOrCreateContext_existing_witness :
    (getOrCreateContext 3000 3000
        [("+15550001111", { threadId := some "thread_a", createdAt := 1000, lastUpdated := 1001 })]
        "+15550001111").1
      = some { threadId := some "thread_a", createdAt := 1000, lastUpdated := 3000 } :=
  (getOrCreateContext_existing 3000 3000
    [("+15550001111", { threadId := some "thread_a", createdAt := 1000, lastUpdated := 1001 })]
    "+15550001111" { threadId := some "thread_a", createdAt := 1000, lastUpdated := 1001 }
    (by decide)).1

end StoreTheorems

/-! ## `JSON.parse`: the recursion bound is never reached -/

namespace JSON

theorem skipWhitespace_length_le (cs : List Char) :
    (skipWhitespace cs).length ≤ cs.length := by
  induction cs with
  | nil => simp [skipWhitespace]
  | cons c cs ih =>
    unfold skipWhitespace
    split
    · exact Nat.le_succ_of_le ih
    · exact Nat.le_refl _

theorem prepend_eq_some (us ws : Utf16) (r : Option (Utf16 × List Char)) (rest : List Char)
    (h : prepend us r = some (ws, rest)) : ∃ vs, r = some (vs, rest) := by
  cases r with
  | none => simp [prepend] at h
  | some p =>
    obtain ⟨vs, rest₁⟩ := p
    simp only [prepend, Option.some.injEq, Prod.mk.injEq] at h
    exact ⟨vs, by rw [h.2]⟩

theorem parseString_length_le_aux (n : Nat) :
    ∀ cs : List Char, cs.length ≤ n →
      ∀ us rest, parseString cs = some (us, rest) → rest.length ≤ cs.length := by
  induction n with
  | zero =>
    intro cs hn us rest h
    have : cs = [] := List.length_eq_zero.1 (Nat.le_zero.1 hn)
    subst this
    simp [parseString] at h
  | succ n ih =>
    intro cs hn us rest h
    unfold parseString at h
    split at h
    · simp at h
    · simp only [Option.some.injEq, Prod.mk.injEq] at h
      rw [← h.2]
      simp
    · split at h
      · obtain ⟨vs, hrec⟩ := prepend_eq_some _ _ _ _ h
        have := ih _ (by simp only [List.length_cons] at hn ⊢; omega) vs rest hrec
        simp only [List.length_cons]
        omega
      · simp at h
    · split at h
      · obtain ⟨vs, hrec⟩ := prepend_eq_some _ _ _ _ h
        have := ih _ (by simp only [List.length_cons] at hn ⊢; omega) vs rest hrec
        simp only [List.length_cons]
        omega
      · simp at h
    · simp at h
    · split at h
      · simp at h
      · obtain ⟨vs, hrec⟩ := prepend_eq_some _ _ _ _ h
        have := ih _ (by simp only [List.length_cons] at hn ⊢; omega) vs rest hrec
        simp only [List.length_cons]
        omega

theorem parseString_length_le (cs : List Char) (us : Utf16) (rest : List Char)
    (h : parseString cs = some (us, rest)) : rest.length ≤ cs.length :=
  parseString_length_le_aux cs.length cs (Nat.le_refl _) us rest h

theorem digits_length_lt (cs ds rest : List Char) (h : digits cs = some (ds, rest)) :
    rest.length < cs.length := by
  unfold digits at h
  rw [List.span_eq_take_drop] at h
  have hlen : (cs.takeWhile Char.isDigit).length + (cs.dropWhile Char.isDigit).length
      = cs.length := by
    rw [← List.length_append, List.takeWhile_append_dropWhile]
  cases htw : cs.takeWhile Char.isDigit with
  | nil => simp [htw] at h
  | cons d ds₁ =>
    rw [htw] at h hlen
    simp only [Option.some.injEq, Prod.mk.injEq] at h
    rw [← h.2]
    simp only [List.length_cons] at hlen
    omega

theorem optional_length_le (p : Char → Bool) (cs : List Char) :
    (optional p cs).2.length ≤ cs.length := by
  cases cs with
  | nil => simp [optional]
  | cons c rest =>
    simp only [optional]
    split <;> simp

theorem parseInteger_length_lt (cs ds rest : List Char)
    (h : parseInteger cs = some (ds, rest)) : rest.length < cs.length := by
  unfold parseInteger at h
  split at h
  · simp only [Option.some.injEq, Prod.mk.injEq] at h
    rw [← h.2]
    simp
  · exact digits_length_lt _ _ _ h

theorem parseFraction_length_le (cs ds rest : List Char)
    (h : parseFraction cs = some (ds, rest)) : rest.length ≤ cs.length := by
  unfold parseFraction at h
  split at h
  · rename_i rest₀
    cases hd : digits rest₀ with
    | none => simp [hd] at h
    | some pd =>
      obtain ⟨ds₁, rest₁⟩ := pd
      have := digits_length_lt _ _ _ hd
      simp only [hd, Option.some.injEq, Prod.mk.injEq] at h
      rw [← h.2]
      simp only [List.length_cons]
      omega
  · simp only [Option.some.injEq, Prod.mk.injEq] at h
    rw [← h.2]

theorem parseExponent_length_le (cs ds rest : List Char)
    (h : parseExponent cs = some (ds, rest)) : rest.length ≤ cs.length := by
  unfold parseExponent at h
  split at h
  · rename_i e rest₀
    split at h
    · have hs := optional_length_le (fun s => s = '+' ∨ s = '-') rest₀
      rcases ho : optional (fun s => s = '+' ∨ s = '-') rest₀ with ⟨sign, rest₁⟩
      rw [ho] at h hs
      simp only at h hs
      cases hd : digits rest₁ with
      | none => simp [hd] at h
      | some pd =>
        obtain ⟨ds₁, rest₂⟩ := pd
        have := digits_length_lt _ _ _ hd
        simp only [hd, Option.some.injEq, Prod.mk.injEq] at h
        rw [← h.2]
        simp only [List.length_cons]
        omega
    · simp only [Option.some.injEq, Prod.mk.injEq] at h
      rw [← h.2]
  · simp only [Option.some.injEq, Prod.mk.injEq] at h
    rw [← h.2]

theorem parseNumber_length_lt (cs literal rest : List Char)
    (h : parseNumber cs = some (literal, rest)) : rest.length < cs.length := by
  unfold parseNumber at h
  have hs := optional_length_le (fun s => s = '-') cs
  rcases ho : optional (fun s => s = '-') cs with ⟨sign, cs₁⟩
  rw [ho] at h hs
  simp only at h hs
  cases hi : parseInteger cs₁ with
  | none => simp [hi] at h
  | some pi =>
    obtain ⟨int, cs₂⟩ := pi
    have h2 := parseInteger_length_lt _ _ _ hi
    simp only [hi] at h
    cases hf : parseFraction cs₂ with
    | none => simp [hf] at h
    | some pf =>
      obtain ⟨frac, cs₃⟩ := pf
      have h3 := parseFraction_length_le _ _ _ hf
      simp only [hf] at h
      cases he : parseExponent cs₃ with
      | none => simp [he] at h
      | some pe =>
        obtain ⟨exp, cs₄⟩ := pe
        have h4 := parseExponent_length_le _ _ _ he
        simp only [he, Option.some.injEq, Prod.mk.injEq] at h
        rw [← h.2]
        omega

theorem skip_cons_length (cs rest : List Char) (c : Char) (h : skipWhitespace cs = c :: rest) :
    rest.length + 1 ≤ cs.length := by
  have := skipWhitespace_length_le cs
  rw [h] at this
  simpa using this

theorem parse_consumes (fuel : Nat) :
    (∀ cs v rest, parseValue fuel cs = some (v, rest) → rest.length < cs.length) ∧
    (∀ cs vs rest, parseElements fuel cs = some (vs, rest) → rest.length < cs.length) ∧
    (∀ cs acc ms rest, parseMembers fuel cs acc = some (ms, rest) → rest.length < cs.length) := by
  induction fuel with
  | zero =>
    refine ⟨?_, ?_, ?_⟩
    · intro cs v rest h; simp [parseValue] at h
    · intro cs vs rest h; simp [parseElements] at h
    · intro cs acc ms rest h; simp [parseMembers] at h
  | succ n ih =>
    obtain ⟨ihV, ihE, ihM⟩ := ih
    refine ⟨?_, ?_, ?_⟩
    · intro cs v rest h
      unfold parseValue at h
      split at h
      · simp only [Option.some.injEq, Prod.mk.injEq] at h
        rw [← h.2]
        simp only [List.length_cons]
        omega
      · simp only [Option.some.injEq, Prod.mk.injEq] at h
        rw [← h.2]
        simp only [List.length_cons]
        omega
      · simp only [Option.some.injEq, Prod.mk.injEq] at h
        rw [← h.2]
        simp only [List.length_cons]
        omega
      · rename_i rest₀
        cases hs : parseString rest₀ with
        | none => simp [hs] at h
        | some p =>
          obtain ⟨us, rest₁⟩ := p
          have := parseString_length_le _ _ _ hs
          simp only [hs, Option.some.injEq, Prod.mk.injEq] at h
          rw [← h.2]
          simp only [List.length_cons]
          omega
      · rename_i rest₀
        split at h
        · rename_i rest₁ hsk
          have := skip_cons_length _ _ _ hsk
          simp only [Option.some.injEq, Prod.mk.injEq] at h
          rw [← h.2]
          simp only [List.length_cons]
          omega
        · have hsk := skipWhitespace_length_le rest₀
          cases he : parseElements n (skipWhitespace rest₀) with
          | none => simp [he] at h
          | some p =>
            obtain ⟨items, rest₂⟩ := p
            have := ihE _ _ _ he
            simp only [he, Option.some.injEq, Prod.mk.injEq] at h
            rw [← h.2]
            simp only [List.length_cons]
            omega
      · rename_i rest₀
        split at h
        · rename_i rest₁ hsk
          have := skip_cons_length _ _ _ hsk
          simp only [Option.some.injEq, Prod.mk.injEq] at h
          rw [← h.2]
          simp only [List.length_cons]
          omega
        · have hsk := skipWhitespace_length_le rest₀
          cases he : parseMembers n (skipWhitespace rest₀) [] with
          | none => simp [he] at h
          | some p =>
            obtain ⟨members, rest₂⟩ := p
            have := ihM _ _ _ _ he
            simp only [he, Option.some.injEq, Prod.mk.injEq] at h
            rw [← h.2]
            simp only [List.length_cons]
            omega
      · cases hn : parseNumber cs with
        | none => simp [hn] at h
        | some p =>
          obtain ⟨literal, rest₁⟩ := p
          have := parseNumber_length_lt _ _ _ hn
          simp only [hn, Option.some.injEq, Prod.mk.injEq] at h
          rw [← h.2]
          exact this
    · intro cs vs rest h
      unfold parseElements at h
      cases hv : parseValue n cs with
      | none => simp [hv] at h
      | some p =>
        obtain ⟨v, rest₁⟩ := p
        have h1 := ihV _ _ _ hv
        simp only [hv] at h
        split at h
        · rename_i rest₂ hsk
          have := skip_cons_length _ _ _ hsk
          simp only [Option.some.injEq, Prod.mk.injEq] at h
          rw [← h.2]
          omega
        · rename_i rest₂ hsk
          have h2 := skip_cons_length _ _ _ hsk
          have h3 := skipWhitespace_length_le rest₂
          cases he : parseElements n (skipWhitespace rest₂) with
          | none => simp [he] at h
          | some q =>
            obtain ⟨vs₁, rest₃⟩ := q
            have := ihE _ _ _ he
            simp only [he, Option.some.injEq, Prod.mk.injEq] at h
            rw [← h.2]
            omega
        · simp at h
    · intro cs acc ms rest h
      unfold parseMembers at h
      split at h
      · rename_i rest₀
        cases hs : parseString rest₀ with
        | none => simp [hs] at h
        | some p =>
          obtain ⟨key, rest₁⟩ := p
          have h1 := parseString_length_le _ _ _ hs
          simp only [hs] at h
          split at h
          · rename_i rest₂ hsk
            have h2 := skip_cons_length _ _ _ hsk
            have h3 := skipWhitespace_length_le rest₂
            cases hv : parseValue n (skipWhitespace rest₂) with
            | none => simp [hv] at h
            | some q =>
              obtain ⟨v, rest₃⟩ := q
              have h4 := ihV _ _ _ hv
              simp only [hv] at h
              split at h
              · rename_i rest₄ hsk2
                have h5 := skip_cons_length _ _ _ hsk2
                simp only [Option.some.injEq, Prod.mk.injEq] at h
                rw [← h.2]
                simp only [List.length_cons]
                omega
              · rename_i rest₄ hsk2
                have h5 := skip_cons_length _ _ _ hsk2
                have h6 := skipWhitespace_length_le rest₄
                have := ihM _ _ _ _ h
                simp only [List.length_cons]
                omega
              · simp at h
          · simp at h
      · simp at h

theorem parse_fuel (f₁ : Nat) :
    (∀ f₂ cs, 2 * cs.length + 1 ≤ f₁ → 2 * cs.length + 1 ≤ f₂ →
      parseValue f₁ cs = parseValue f₂ cs) ∧
    (∀ f₂ cs, 2 * cs.length + 2 ≤ f₁ → 2 * cs.length + 2 ≤ f₂ →
      parseElements f₁ cs = parseElements f₂ cs) ∧
    (∀ f₂ cs acc, 2 * cs.length + 2 ≤ f₁ → 2 * cs.length + 2 ≤ f₂ →
      parseMembers f₁ cs acc = parseMembers f₂ cs acc) := by
  induction f₁ with
  | zero =>
    refine ⟨?_, ?_, ?_⟩
    · intro f₂ cs h; omega
    · intro f₂ cs h; omega
    · intro f₂ cs acc h; omega
  | succ a ih =>
    obtain ⟨ihV, ihE, ihM⟩ := ih
    refine ⟨?_, ?_, ?_⟩
    · intro f₂ cs h₁ h₂
      obtain ⟨b, rfl⟩ : ∃ b, f₂ = b + 1 := ⟨f₂ - 1, by omega⟩
      unfold parseValue
      split
      · rfl
      · rfl
      · rfl
      · rfl
      · rename_i rest₀
        have hsk := skipWhitespace_length_le rest₀
        simp only [List.length_cons] at h₁ h₂
        split
        · rfl
        · rw [ihE b (skipWhitespace rest₀) (by omega) (by omega)]
      · rename_i rest₀
        have hsk := skipWhitespace_length_le rest₀
        simp only [List.length_cons] at h₁ h₂
        split
        · rfl
        · rw [ihM b (skipWhitespace rest₀) [] (by omega) (by omega)]
      · rfl
    · intro f₂ cs h₁ h₂
      obtain ⟨b, rfl⟩ : ∃ b, f₂ = b + 1 := ⟨f₂ - 1, by omega⟩
      unfold parseElements
      rw [ihV b cs (by omega) (by omega)]
      cases hv : parseValue b cs with
      | none => rfl
      | some p =>
        obtain ⟨v, rest₁⟩ := p
        have h1 := (parse_consumes b).1 _ _ _ hv
        simp only
        split
        · rfl
        · rename_i rest₂ hsk
          have h2 := skip_cons_length _ _ _ hsk
          have h3 := skipWhitespace_length_le rest₂
          rw [ihE b (skipWhitespace rest₂) (by omega) (by omega)]
        · rfl
    · intro f₂ cs acc h₁ h₂
      obtain ⟨b, rfl⟩ : ∃ b, f₂ = b + 1 := ⟨f₂ - 1, by omega⟩
      unfold parseMembers
      split
      · rename_i rest₀
        cases hs : parseString rest₀ with
        | none => rfl
        | some p =>
          obtain ⟨key, rest₁⟩ := p
          have h1 := parseString_length_le _ _ _ hs
          simp only [List.length_cons] at h₁ h₂
          simp only
          split
          · rename_i rest₂ hsk
            have h2 := skip_cons_length _ _ _ hsk
            have h3 := skipWhitespace_length_le rest₂
            rw [ihV b (skipWhitespace rest₂) (by omega) (by omega)]
            cases hv : parseValue b (skipWhitespace rest₂) with
            | none => rfl
            | some q =>
              obtain ⟨v, rest₃⟩ := q
              have h4 := (parse_consumes b).1 _ _ _ hv
              simp only
              split
              · rfl
              · rename_i rest₄ hsk2
                have h5 := skip_cons_length _ _ _ hsk2
                have h6 := skipWhitespace_length_le rest₄
                rw [ihM b (skipWhitespace rest₄) _ (by omega) (by omega)]
              · rfl
          · rfl
      · rfl

/-- The recursion bound of `JSON.parse` is never reached: any larger bound gives the same
result. -/
theorem parseValue_fuel (text : String) (fuel : Nat) (h : 2 * text.length + 1 ≤ fuel) :
    parseValue fuel (skipWhitespace text.toList)
      = parseValue (2 * text.length + 2) (skipWhitespace text.toList) := by
  have hlen : (skipWhitespace text.toList).length ≤ text.length := by
    have := skipWhitespace_length_le text.toList
    simpa using this
  exact (parse_fuel fuel).1 _ _ (by omega) (by omega)

end JSON

/-! ## The tool dispatcher -/

theorem JSON.parse_ok_or_syntaxError (text : String) :
    (∃ v, JSON.parse text = .ok v) ∨ JSON.parse text = .error .syntaxError := by
  unfold JSON.parse
  split
  · split
    · exact Or.inl ⟨_, rfl⟩
    · exact Or.inr rfl
  · exact Or.inr rfl

theorem sendQualifiedLeadNotification_raises (create : Sms → Except JsError String)
    (leadInfo : Json) (h : leadInfo = .null ∨ leadInfo.leadInterpolates = false) :
    sendQualifiedLeadNotification create leadInfo = (.error .typeError, []) := by
  unfold sendQualifiedLeadNotification
  rcases h with h | h
  · rw [h]
  · split
    · rfl
    · rw [if_neg (by simp [h])]

theorem sendQualifiedLeadNotification_sends (create : Sms → Except JsError String)
    (leadInfo : Json) (hnull : leadInfo ≠ .null) (h : leadInfo.leadInterpolates = true) :
    sendQualifiedLeadNotification create leadInfo
      = (create (leadMessage leadInfo), [Call.twilioMessagesCreate (leadMessage leadInfo)]) := by
  unfold sendQualifiedLeadNotification
  split
  · exact absurd rfl hnull
  · rw [if_pos h]

theorem sendQualifiedLeadNotification_calls (create : Sms → Except JsError String)
    (leadInfo : Json) :
    ∀ call ∈ (sendQualifiedLeadNotification create leadInfo).2,
      ∃ sms, call = Call.twilioMessagesCreate sms := by
  intro call hcall
  by_cases hnull : leadInfo = .null
  · rw [sendQualifiedLeadNotification_raises create leadInfo (Or.inl hnull)] at hcall
    simp at hcall
  · by_cases h : leadInfo.leadInterpolates = true
    · rw [sendQualifiedLeadNotification_sends create leadInfo hnull h] at hcall
      simp only [List.mem_singleton] at hcall
      exact ⟨_, hcall⟩
    · rw [sendQualifiedLeadNotification_raises create leadInfo
        (Or.inr (by simpa using h))] at hcall
      simp at hcall

theorem handleFunctionCall_of_parse (create : Sms → Except JsError String) (toolCall : ToolCall)
    (functionArgs : Json) (hparse : JSON.parse toolCall.function.arguments = .ok functionArgs) :
    handleFunctionCall create toolCall =
      if toolCall.function.name = "send_qualified_lead" then
        (.ok { tool_call_id := toolCall.id,
               output :=
                 match (sendQualifiedLeadNotification create functionArgs).1 with
                 | .ok _ => "Lead information has been successfully sent to the law firm. Thank you for providing all the necessary details!"
                 | .error _ => "There was an error sending the lead information. Please try again." },
         (sendQualifiedLeadNotification create functionArgs).2)
      else (.ok { tool_call_id := toolCall.id, output := "Unknown function called." }, []) := by
  unfold handleFunctionCall
  simp only [hparse]
  split
  · rcases h : sendQualifiedLeadNotification create functionArgs with ⟨r, calls⟩
    cases r <;> rfl
  · rfl

/-- C1: the claim fails on the code at a tool call whose `arguments` is not valid JSON (here a
truncated object for `send_qualified_lead`, and the empty string for an unregistered function
name): `handleFunctionCall` raises the `SyntaxError` of `JSON.parse`, which runs outside the
`try`/`catch`, instead of returning a `{tool_call_id, output}` value; the notifier is not
reached. -/
theorem handleFunctionCall_raises_on_malformed_arguments :
    handleFunctionCall (fun _ => .ok "SM1")
        { id := "call_1",
          function := { name := "send_qualified_lead", arguments := "\x7b\"fullName\": \"Ann\"" } }
      = (.error .syntaxError, []) ∧
    handleFunctionCall (fun _ => .ok "SM1")
        { id := "call_2", function := { name := "lookup_case", arguments := "" } }
      = (.error .syntaxError, []) :=
  ⟨rfl, rfl⟩

/-- The extent of the defect: `handleFunctionCall` returns a `{tool_call_id, output}` value
carrying the call's id exactly when the arguments string is valid JSON, and raises the
`SyntaxError` of `JSON.parse` otherwise, whatever the function name and the outcome of the
notification send. -/
theorem handleFunctionCall_returns_iff_arguments_parse (create : Sms → Except JsError String)
    (toolCall : ToolCall) :
    ((∃ output, (handleFunctionCall create toolCall).1
        = .ok { tool_call_id := toolCall.id, output := output }) ↔
      ∃ functionArgs, JSON.parse toolCall.function.arguments = .ok functionArgs) ∧
    (handleFunctionCall create toolCall = (.error .syntaxError, []) ↔
      JSON.parse toolCall.function.arguments = .error .syntaxError) ∧
    ((∃ output, (handleFunctionCall create toolCall).1
        = .ok { tool_call_id := toolCall.id, output := output }) ∨
      handleFunctionCall create toolCall = (.error .syntaxError, [])) := by
  rcases JSON.parse_ok_or_syntaxError toolCall.function.arguments with ⟨v, hv⟩ | herr
  · have h := handleFunctionCall_of_parse create toolCall v hv
    have hret : ∃ output, (handleFunctionCall create toolCall).1
        = .ok { tool_call_id := toolCall.id, output := output } := by
      rw [h]
      split
      · exact ⟨_, rfl⟩
      · exact ⟨_, rfl⟩
    refine ⟨⟨fun _ => ⟨v, hv⟩, fun _ => hret⟩, ⟨?_, ?_⟩, Or.inl hret⟩
    · intro he
      obtain ⟨output, ho⟩ := hret
      rw [he] at ho
      cases ho
    · intro he
      rw [hv] at he
      cases he
  · have h : handleFunctionCall create toolCall = (.error .syntaxError, []) := by
      unfold handleFunctionCall
      simp only [herr]
    refine ⟨⟨?_, ?_⟩, ⟨fun _ => herr, fun _ => h⟩, Or.inr h⟩
    · rintro ⟨output, ho⟩
      rw [h] at ho
      cases ho
    · rintro ⟨v, hv⟩
      rw [herr] at hv
      cases hv

/-- C2: for a tool call whose arguments parse, `handleFunctionCall` returns the call's id; for the
name `send_qualified_lead` the output is the fixed success text when the notifier returns and the
fixed failure text when it raises, and the only collaborator calls are the notifier's; for any
other name the output is `"Unknown function called."` and no collaborator call is made, whatever
the messaging client would have answered. The notifier raises without reaching the messaging
client when the lead is `null` or one of its four fields cannot be converted to a string, and
otherwise makes the one send and returns or raises as the send does. -/
theorem handleFunctionCall_output (create : Sms → Except JsError String) (toolCall : ToolCall)
    (functionArgs : Json) (hparse : JSON.parse toolCall.function.arguments = .ok functionArgs) :
    (toolCall.function.name = "send_qualified_lead" →
      (∀ sid, (sendQualifiedLeadNotification create functionArgs).1 = .ok sid →
        (handleFunctionCall create toolCall).1
          = .ok { tool_call_id := toolCall.id,
                  output := "Lead information has been successfully sent to the law firm. Thank you for providing all the necessary details!" }) ∧
      (∀ e, (sendQualifiedLeadNotification create functionArgs).1 = .error e →
        (handleFunctionCall create toolCall).1
          = .ok { tool_call_id := toolCall.id,
                  output := "There was an error sending the lead information. Please try again." }) ∧
      (handleFunctionCall create toolCall).2
        = (sendQualifiedLeadNotification create functionArgs).2) ∧
    (toolCall.function.name ≠ "send_qualified_lead" →
      handleFunctionCall create toolCall
        = (.ok { tool_call_id := toolCall.id, output := "Unknown function called." }, [])) ∧
    (functionArgs = .null ∨ functionArgs.leadInterpolates = false →
      sendQualifiedLeadNotification create functionArgs = (.error .typeError, [])) ∧
    (functionArgs ≠ .null → functionArgs.leadInterpolates = true →
      sendQualifiedLeadNotification create functionArgs
        = (create (leadMessage functionArgs),
           [Call.twilioMessagesCreate (leadMessage functionArgs)])) := by
  rw [handleFunctionCall_of_parse create toolCall functionArgs hparse]
  refine ⟨?_, ?_, ?_, ?_⟩
  · intro hname
    rw [if_pos hname]
    refine ⟨?_, ?_, rfl⟩
    · intro sid hsid
      simp only [hsid]
    · intro e he
      simp only [he]
  · intro hname
    rw [if_neg hname]
  · intro h
    exact sendQualifiedLeadNotification_raises create functionArgs h
  · intro h1 h2
    exact sendQualifiedLeadNotification_sends create functionArgs h1 h2

/-- A lead whose notification is delivered, the same lead when the messaging client rejects the
send, a lead whose `fullName` is an object with an own `toString` property (the template throws
before any send), and an unregistered function name. -/
theorem handleFunctionCall_output_witness :
    (handleFunctionCall (fun _ => .ok "SM1")
        { id := "call_1",
          function := { name := "send_qualified_lead",
                        arguments := "\x7b\"fullName\": \"Ann\"\x7d" } }).1
      = .ok { tool_call_id := "call_1",
              output := "Lead information has been successfully sent to the law firm. Thank you for providing all the necessary details!" } ∧
    (handleFunctionCall (fun _ => .error (.rejected "invalid destination"))
        { id := "call_1",
          function := { name := "send_qualified_lead",
                        arguments := "\x7b\"fullName\": \"Ann\"\x7d" } }).1
      = .ok { tool_call_id := "call_1",
              output := "There was an error sending the lead information. Please try again." } ∧
    (handleFunctionCall (fun _ => .ok "SM1")
        { id := "call_2",
          function := { name := "send_qualified_lead",
                        arguments := "\x7b\"fullName\":\x7b\"toString\":1\x7d\x7d" } }).1
      = .ok { tool_call_id := "call_2",
              output := "There was an error sending the lead information. Please try again." } ∧
    handleFunctionCall (fun _ => .ok "SM1")
        { id := "call_3", function := { name := "lookup_case", arguments := "null" } }
      = (.ok { tool_call_id := "call_3", output := "Unknown function called." }, []) :=
  ⟨(handleFunctionCall_output (fun _ => .ok "SM1")
      { id := "call_1",
        function := { name := "send_qualified_lead",
                      arguments := "\x7b\"fullName\": \"Ann\"\x7d" } }
      (.obj [(toUtf16 "fullName", .str (toUtf16 "Ann"))]) rfl).1 rfl |>.1 "SM1" rfl,
   (handleFunctionCall_output (fun _ => .error (.rejected "invalid destination"))
      { id := "call_1",
        function := { name := "send_qualified_lead",
                      arguments := "\x7b\"fullName\": \"Ann\"\x7d" } }
      (.obj [(toUtf16 "fullName", .str (toUtf16 "Ann"))]) rfl).1 rfl |>.2.1
        (.rejected "invalid destination") rfl,
   (handleFunctionCall_output (fun _ => .ok "SM1")
      { id := "call_2",
        function := { name := "send_qualified_lead",
                      arguments := "\x7b\"fullName\":\x7b\"toString\":1\x7d\x7d" } }
      (.obj [(toUtf16 "fullName", .obj [(toUtf16 "toString", .num ['1'])])]) rfl).1 rfl |>.2.1
        .typeError rfl,
   (handleFunctionCall_output (fun _ => .ok "SM1")
      { id := "call_3", function := { name := "lookup_case", arguments := "null" } }
      .null rfl).2.1 (by decide)⟩

/-- A lead whose `fullName` cannot be converted to a string is answered with the failure text
and no message is sent; an array of convertible values is interpolated and sent. -/
theorem handleFunctionCall_unconvertible_field :
    handleFunctionCall (fun _ => .ok "SM1")
        { id := "call_2",
          function := { name := "send_qualified_lead",
                        arguments := "\x7b\"fullName\":\x7b\"toString\":1\x7d\x7d" } }
      = (.ok { tool_call_id := "call_2",
               output := "There was an error sending the lead information. Please try again." },
         []) ∧
    (handleFunctionCall (fun _ => .ok "SM1")
        { id := "call_5",
          function := { name := "send_qualified_lead",
                        arguments := "\x7b\"city\":[\"LA\",\x7b\"toString\":1\x7d]\x7d" } }).2
      = [] ∧
    (handleFunctionCall (fun _ => .ok "SM1")
        { id := "call_6",
          function := { name := "send_qualified_lead",
                        arguments := "\x7b\"city\":[\"LA\",\x7b\"a\":1\x7d,null]\x7d" } }).2.length
      = 1 :=
  ⟨rfl, rfl, rfl⟩

/-! ## The time-of-day helper -/

/-- C10: for a day of the month `1 ≤ d ≤ 31`, `getDaySuffix` is `"st"` exactly for 1, 21, 31,
`"nd"` exactly for 2, 22, `"rd"` exactly for 3, 23, and `"th"` for every other day (11, 12 and 13
included). -/
theorem getDaySuffix_spec (d : Int) (h1 : 1 ≤ d) (h31 : d ≤ 31) :
    (getDaySuffix d = "st" ↔ d = 1 ∨ d = 21 ∨ d = 31) ∧
    (getDaySuffix d = "nd" ↔ d = 2 ∨ d = 22) ∧
    (getDaySuffix d = "rd" ↔ d = 3 ∨ d = 23) ∧
    (getDaySuffix d = "th" ↔
      ¬ (d = 1 ∨ d = 21 ∨ d = 31 ∨ d = 2 ∨ d = 22 ∨ d = 3 ∨ d = 23)) := by
  interval_cases d <;> decide

/-- The 21st, and the 11th to 13th. -/
theorem getDaySuffix_spec_witness :
    getDaySuffix 21 = "st" ∧ getDaySuffix 11 = "th" ∧ getDaySuffix 12 = "th" ∧
      getDaySuffix 13 = "th" :=
  ⟨(getDaySuffix_spec 21 (by decide) (by decide)).1.2 (Or.inr (Or.inl rfl)),
   by decide, by decide, by decide⟩

/-! ## The request handler -/

namespace Handler

variable {α β : Type}

theorem bind_apply (m : Handler α) (f : α → Handler β) (s : HandlerState) :
    (m >>= f) s =
      match m s with
      | (.done a, s₁) => f a s₁
      | (.raised e, s₁) => (.raised e, s₁)
      | (.waiting, s₁) => (.waiting, s₁) := rfl

theorem bind_of_done (m : Handler α) (f : α → Handler β) (s s₁ : HandlerState) (a : α)
    (h : m s = (.done a, s₁)) : (m >>= f) s = f a s₁ := by
  rw [bind_apply, h]

theorem ofExcept_state (r : Except JsError α) (s : HandlerState) : (ofExcept r s).2 = s := by
  cases r <;> rfl

theorem inert_pure (a : α) : (Handler.pure a).Inert := fun _ => ⟨rfl, id⟩

theorem inert_ofExcept (r : Except JsError α) : (ofExcept r).Inert := by
  intro s
  rw [ofExcept_state]
  exact ⟨rfl, id⟩

theorem inert_call (c : Call) (outcome : Except JsError α) (hc : c ≠ Call.threadsCreate) :
    (call c outcome).Inert := by
  intro s
  unfold call
  rw [ofExcept_state]
  refine ⟨rfl, ?_⟩
  intro h
  simp only [List.mem_append, List.mem_singleton] at h
  rcases h with h | h
  · exact h
  · exact absurd h.symm hc

theorem inert_bind (m : Handler α) (f : α → Handler β) (hm : m.Inert) (hf : ∀ a, (f a).Inert) :
    (m >>= f).Inert := by
  intro s
  rw [bind_apply]
  have h := hm s
  rcases hms : m s with ⟨r, s₁⟩
  rw [hms] at h
  cases r with
  | done a =>
    have h2 := hf a s₁
    exact ⟨h2.1.trans h.1, fun hmem => h.2 (h2.2 hmem)⟩
  | raised e => exact h
  | waiting => exact h

end Handler

theorem inert_retrieveRun (c : Collaborators) (threadId runId : String) :
    (retrieveRun c threadId runId).Inert := by
  intro s
  unfold retrieveRun
  rw [Handler.ofExcept_state]
  refine ⟨rfl, ?_⟩
  intro h
  simp only [List.mem_append, List.mem_singleton] at h
  rcases h with h | h
  · exact h
  · cases h

theorem inert_sendReply (c : Collaborators) (responseText : String) (phoneNumber : JsValue) :
    (sendReply c responseText phoneNumber).Inert := by
  intro s
  unfold sendReply
  rw [Handler.ofExcept_state]
  refine ⟨rfl, ?_⟩
  intro h
  simp only [List.mem_append, List.mem_singleton] at h
  rcases h with h | h
  · exact h
  · cases h

theorem handleFunctionCall_calls (create : Sms → Except JsError String) (toolCall : ToolCall) :
    Call.threadsCreate ∉ (handleFunctionCall create toolCall).2 := by
  intro hmem
  rcases JSON.parse_ok_or_syntaxError toolCall.function.arguments with ⟨v, hv⟩ | herr
  · rw [handleFunctionCall_of_parse create toolCall v hv] at hmem
    split at hmem
    · obtain ⟨sms, hsms⟩ := sendQualifiedLeadNotification_calls create v _ hmem
      cases hsms
    · simp at hmem
  · have h : handleFunctionCall create toolCall = (.error .syntaxError, []) := by
      unfold handleFunctionCall
      simp only [herr]
    rw [h] at hmem
    simp at hmem

theorem inert_dispatch (c : Collaborators) (toolCall : ToolCall) : (dispatch c toolCall).Inert := by
  intro s
  unfold dispatch
  have hcalls := handleFunctionCall_calls (c.twilioMessagesCreate s.sends) toolCall
  rcases hfc : handleFunctionCall (c.twilioMessagesCreate s.sends) toolCall with ⟨result, calls⟩
  rw [hfc] at hcalls
  simp only [Handler.ofExcept_state]
  refine ⟨rfl, ?_⟩
  intro h
  simp only [List.mem_append] at h
  rcases h with h | h
  · exact h
  · exact absurd h hcalls

theorem inert_pollWhile (c : Collaborators) (threadId runId : String) (fuel : Nat)
    (runStatus : Run) : (pollWhile c threadId runId fuel runStatus).Inert := by
  induction fuel generalizing runStatus with
  | zero =>
    unfold pollWhile
    split
    · intro s
      exact ⟨rfl, id⟩
    · exact Handler.inert_pure _
  | succ n ih =>
    unfold pollWhile
    split
    · exact Handler.inert_bind _ _ (inert_retrieveRun c threadId runId) (fun r => ih r)
    · exact Handler.inert_pure _

theorem inert_handleToolCalls (c : Collaborators) (toolCalls : List ToolCall) :
    (handleToolCalls c toolCalls).Inert := by
  induction toolCalls with
  | nil => exact Handler.inert_pure _
  | cons toolCall rest ih =>
    unfold handleToolCalls
    exact Handler.inert_bind _ _ (inert_dispatch c toolCall)
      (fun _ => Handler.inert_bind _ _ ih (fun _ => Handler.inert_pure _))

theorem inert_runThread (c : Collaborators) (fuel : Nat) (message : JsValue)
    (threadId : String) : (runThread c fuel message threadId).Inert := by
  unfold runThread
  refine Handler.inert_bind _ _ (Handler.inert_call _ _ (by simp)) (fun _ => ?_)
  refine Handler.inert_bind _ _ (Handler.inert_call _ _ (by simp)) (fun runId => ?_)
  refine Handler.inert_bind _ _ (inert_retrieveRun c threadId runId) (fun r => ?_)
  refine Handler.inert_bind _ _ (inert_pollWhile c threadId runId fuel r) (fun r₁ => ?_)
  split
  · split
    · exact Handler.inert_ofExcept _
    · refine Handler.inert_bind _ _ (inert_handleToolCalls c _) (fun outputs => ?_)
      refine Handler.inert_bind _ _ (Handler.inert_call _ _ (by simp)) (fun _ => ?_)
      refine Handler.inert_bind _ _ (inert_retrieveRun c threadId runId) (fun r₂ => ?_)
      exact inert_pollWhile c threadId runId fuel r₂
  · exact Handler.inert_pure _

theorem inert_responseTextFor (c : Collaborators) (threadId : String) (runStatus : Run) :
    (responseTextFor c threadId runStatus).Inert := by
  unfold responseTextFor
  split
  · refine Handler.inert_bind _ _ (Handler.inert_call _ _ (by simp)) (fun messages => ?_)
    split
    · exact Handler.inert_ofExcept _
    · split
      · split
        · exact Handler.inert_pure _
        · exact Handler.inert_ofExcept _
      · exact Handler.inert_pure _
  · exact Handler.inert_pure _

/-- The handler after the thread is known: the run, the reply text, the send. -/
theorem handleInboundMessage_eq (c : Collaborators) (fuel : Nat) (now₁ now₂ : Int)
    (message phone_number : JsValue) :
    handleInboundMessage c fuel now₁ now₂ message phone_number =
      (openThread c now₁ now₂ phone_number >>= fun threadId =>
        runThread c fuel message threadId >>= fun runStatus =>
          responseTextFor c threadId runStatus >>= fun responseText =>
            sendReply c responseText phone_number >>= fun sid =>
              Handler.pure (Response.success responseText sid)) := by
  funext s
  simp only [handleInboundMessage, runAssistant, Handler.bind_apply]
  rcases openThread c now₁ now₂ phone_number s with ⟨r, s₁⟩
  cases r with
  | done threadId =>
    simp only
    rcases runThread c fuel message threadId s₁ with ⟨r₂, s₂⟩
    cases r₂ <;> rfl
  | raised e => rfl
  | waiting => rfl

theorem inert_afterThread (c : Collaborators) (fuel : Nat) (message phone_number : JsValue)
    (threadId : String) :
    (runThread c fuel message threadId >>= fun runStatus =>
      responseTextFor c threadId runStatus >>= fun responseText =>
        sendReply c responseText phone_number >>= fun sid =>
          Handler.pure (Response.success responseText sid)).Inert :=
  Handler.inert_bind _ _ (inert_runThread c fuel message threadId) (fun runStatus =>
    Handler.inert_bind _ _ (inert_responseTextFor c threadId runStatus) (fun responseText =>
      Handler.inert_bind _ _ (inert_sendReply c responseText phone_number) (fun _ =>
        Handler.inert_pure _)))

theorem respond_conversationContexts (body : Handler Response)
    (conversationContexts : JsMap MapKey Context) :
    (respond body conversationContexts).conversationContexts
      = (body (HandlerState.initial conversationContexts)).2.conversationContexts := by
  unfold respond
  split <;> simp_all

theorem respond_calls (body : Handler Response) (conversationContexts : JsMap MapKey Context) :
    (respond body conversationContexts).calls
      = (body (HandlerState.initial conversationContexts)).2.calls := by
  unfold respond
  split <;> simp_all

namespace JsValue

theorem arrayIndex_toString (name : String) (n : Nat) (h : arrayIndex name = some n) :
    toString n = name := by
  unfold arrayIndex at h
  simp only at h
  split at h
  · rename_i hc
    cases h
    exact hc.1
  · cases h

theorem mem_insertIndex (n m : Nat) (l : List Nat) :
    m ∈ insertIndex n l ↔ m = n ∨ m ∈ l := by
  induction l with
  | nil => simp [insertIndex]
  | cons a l ih =>
    unfold insertIndex
    split
    · simp
    · split
      · rename_i h
        subst h
        simp
      · simp only [List.mem_cons, ih]
        constructor
        · rintro (h | h | h)
          · exact Or.inr (Or.inl h)
          · exact Or.inl h
          · exact Or.inr (Or.inr h)
        · rintro (h | h | h)
          · exact Or.inr (Or.inl h)
          · exact Or.inl h
          · exact Or.inr (Or.inr h)

theorem sorted_insertIndex (n : Nat) (l : List Nat) (h : l.Pairwise (· < ·)) :
    (insertIndex n l).Pairwise (· < ·) := by
  induction l with
  | nil => simp [insertIndex]
  | cons a l ih =>
    have ha := List.pairwise_cons.1 h
    unfold insertIndex
    split
    · rename_i hlt
      refine List.pairwise_cons.2 ⟨?_, h⟩
      intro b hb
      rcases List.mem_cons.1 hb with hb | hb
      · rw [hb]; exact hlt
      · exact Nat.lt_trans hlt (ha.1 b hb)
    · split
      · exact h
      · rename_i h1 h2
        refine List.pairwise_cons.2 ⟨?_, ih ha.2⟩
        intro b hb
        rcases (mem_insertIndex n b l).1 hb with hb | hb
        · rw [hb]; omega
        · exact ha.1 b hb

theorem mem_sortedIndices (names : List String) (n : Nat) :
    n ∈ sortedIndices names ↔ ∃ name ∈ names, arrayIndex name = some n := by
  induction names with
  | nil => simp [sortedIndices]
  | cons a names ih =>
    unfold sortedIndices
    cases ha : arrayIndex a with
    | none =>
      simp only [ih, List.mem_cons]
      constructor
      · rintro ⟨name, hmem, h⟩
        exact ⟨name, Or.inr hmem, h⟩
      · rintro ⟨name, hmem | hmem, h⟩
        · rw [hmem, ha] at h
          cases h
        · exact ⟨name, hmem, h⟩
    | some m =>
      simp only [mem_insertIndex, ih, List.mem_cons]
      constructor
      · rintro (h | ⟨name, hmem, h⟩)
        · exact ⟨a, Or.inl rfl, by rw [ha, h]⟩
        · exact ⟨name, Or.inr hmem, h⟩
      · rintro ⟨name, hmem | hmem, h⟩
        · rw [hmem, ha] at h
          cases h
          exact Or.inl rfl
        · exact Or.inr ⟨name, hmem, h⟩

theorem sorted_sortedIndices (names : List String) :
    (sortedIndices names).Pairwise (· < ·) := by
  induction names with
  | nil => simp [sortedIndices]
  | cons a names ih =>
    unfold sortedIndices
    split
    · exact sorted_insertIndex _ _ ih
    · exact ih

theorem mem_otherNames (names : List String) (name : String) :
    name ∈ otherNames names ↔ name ∈ names ∧ arrayIndex name = none := by
  induction names with
  | nil => simp [otherNames]
  | cons a names ih =>
    unfold otherNames
    cases ha : arrayIndex a with
    | some m =>
      simp only [ih, List.mem_cons]
      constructor
      · rintro ⟨hmem, h⟩
        exact ⟨Or.inr hmem, h⟩
      · rintro ⟨hmem | hmem, h⟩
        · rw [hmem, ha] at h
          cases h
        · exact ⟨hmem, h⟩
    | none =>
      simp only [List.mem_cons, List.mem_filter, ih, decide_eq_true_eq]
      constructor
      · rintro (h | ⟨⟨hmem, h⟩, _⟩)
        · exact ⟨Or.inl h, by rw [h, ha]⟩
        · exact ⟨Or.inr hmem, h⟩
      · rintro ⟨hmem | hmem, h⟩
        · exact Or.inl hmem
        · by_cases hname : name = a
          · exact Or.inl hname
          · exact Or.inr ⟨⟨hmem, h⟩, hname⟩

theorem nodup_otherNames (names : List String) : (otherNames names).Nodup := by
  induction names with
  | nil => simp [otherNames]
  | cons a names ih =>
    unfold otherNames
    split
    · exact ih
    · refine List.nodup_cons.2 ⟨?_, ih.filter _⟩
      simp [List.mem_filter]

theorem otherNames_eq_self (names : List String) (hnodup : names.Nodup)
    (hnone : ∀ name ∈ names, arrayIndex name = none) : otherNames names = names := by
  induction names with
  | nil => rfl
  | cons a names ih =>
    have hn := List.nodup_cons.1 hnodup
    unfold otherNames
    rw [hnone a (List.mem_cons_self _ _)]
    simp only
    rw [ih hn.2 (fun name hmem => hnone name (List.mem_cons_of_mem _ hmem))]
    congr 1
    apply List.filter_eq_self.2
    intro other hmem
    simp only [decide_eq_true_eq]
    intro h
    exact hn.1 (h ▸ hmem)

theorem sortedIndices_eq_nil (names : List String)
    (hnone : ∀ name ∈ names, arrayIndex name = none) : sortedIndices names = [] := by
  induction names with
  | nil => rfl
  | cons a names ih =>
    unfold sortedIndices
    rw [hnone a (List.mem_cons_self _ _)]
    exact ih (fun name hmem => hnone name (List.mem_cons_of_mem _ hmem))

/-- The names `Object.keys` lists are exactly the names of the fields, each once; and they come in
the order of the fields when no name is an array index. -/
theorem ownKeys_spec (names : List String) :
    (∀ name, name ∈ ownKeys names ↔ name ∈ names) ∧ (ownKeys names).Nodup ∧
    (names.Nodup → (∀ name ∈ names, arrayIndex name = none) → ownKeys names = names) := by
  have hidx : ∀ n ∈ sortedIndices names, arrayIndex (toString n) = some n := by
    intro n hn
    obtain ⟨name, _, h⟩ := (mem_sortedIndices names n).1 hn
    rw [arrayIndex_toString name n h]
    exact h
  refine ⟨?_, ?_, ?_⟩
  · intro name
    unfold ownKeys
    simp only [List.mem_append, List.mem_map, mem_otherNames]
    constructor
    · rintro (⟨n, hn, h⟩ | ⟨hmem, _⟩)
      · obtain ⟨name₁, hmem, h1⟩ := (mem_sortedIndices names n).1 hn
        rw [← h, arrayIndex_toString name₁ n h1]
        exact hmem
      · exact hmem
    · intro hmem
      cases h : arrayIndex name with
      | none => exact Or.inr ⟨hmem, rfl⟩
      | some n =>
        exact Or.inl ⟨n, (mem_sortedIndices names n).2 ⟨name, hmem, h⟩,
          arrayIndex_toString name n h⟩
  · unfold ownKeys
    refine List.nodup_append.2 ⟨?_, nodup_otherNames names, ?_⟩
    · refine List.Nodup.map_on ?_ ((sorted_sortedIndices names).imp (fun h => Nat.ne_of_lt h))
      intro x hx y hy hxy
      have h1 := hidx x hx
      have h2 := hidx y hy
      rw [hxy, h2] at h1
      cases h1
      rfl
    · intro name h1 h2
      obtain ⟨n, hn, h⟩ := List.mem_map.1 h1
      have h3 := hidx n hn
      rw [h, ((mem_otherNames names name).1 h2).2] at h3
      cases h3
  · intro hnodup hnone
    unfold ownKeys
    rw [sortedIndices_eq_nil names hnone, otherNames_eq_self names hnodup hnone]
    rfl

end JsValue

theorem JsValue.getProp_eq_member (body : JsValue) (hbody : body ≠ .null) (name : String) :
    body.getProp name = .ok (JsValue.member (some body) name) := by
  cases body <;> first | exact absurd rfl hbody | rfl

theorem JsValue.member_of_not_truthy (v : Option JsValue) (hv : JsValue.truthy v = false)
    (name : String) : JsValue.member v name = none := by
  unfold JsValue.member
  split
  · simp [JsValue.truthy] at hv
  · rfl

theorem extractMessage_eq (body : JsValue) (hbody : body ≠ .null) :
    extractMessage body =
      .ok (if JsValue.truthy (JsValue.member (JsValue.member (some body) "customData") "message")
          then some (JsValue.member (JsValue.member (some body) "customData") "message",
                     JsValue.member (some body) "phone")
          else if JsValue.truthy (JsValue.member (some body) "Body")
                && JsValue.truthy (JsValue.member (some body) "From")
          then some (JsValue.member (some body) "Body", JsValue.member (some body) "From")
          else none) := by
  unfold extractMessage
  simp only [JsValue.getProp_eq_member body hbody, bind, Except.bind]
  cases hcd : JsValue.member (some body) "customData" with
  | none =>
    have h1 : JsValue.member none "message" = none := rfl
    have h2 : JsValue.truthy none = false := rfl
    simp only [h1, h2, Bool.false_eq_true, if_false]
    split <;> rfl
  | some v =>
    by_cases ht : JsValue.truthy (some v) = true
    · have hv : v ≠ .null := by
        intro hnull
        rw [hnull] at ht
        simp [JsValue.truthy] at ht
      simp only [ht, if_true, JsValue.getProp_eq_member v hv]
      split
      · rfl
      · split <;> rfl
    · have h1 := JsValue.member_of_not_truthy (some v) (by simpa using ht) "message"
      have h2 : JsValue.truthy none = false := rfl
      simp only [ht, h1, h2, Bool.false_eq_true, if_false]
      split <;> rfl

theorem JsValue.keys_ok (body : JsValue) (hbody : body ≠ .null) :
    ∃ receivedFormat, body.keys = .ok receivedFormat := by
  cases body <;> first | exact absurd rfl hbody | exact ⟨_, rfl⟩

theorem lionheadSms_unrecognized (c : Collaborators) (fuel : Nat) (now₁ now₂ : Int)
    (conversationContexts : JsMap MapKey Context) (body : JsValue) (receivedFormat : List String)
    (hextract : extractMessage body = .ok none) (hkeys : body.keys = .ok receivedFormat) :
    lionheadSms c fuel now₁ now₂ conversationContexts body =
      { response := some (.unrecognized receivedFormat),
        conversationContexts := conversationContexts, calls := [] } := by
  simp [lionheadSms, lionheadSmsBody, respond, Handler.bind_apply, Handler.ofExcept,
    Handler.pure, hextract, hkeys, HandlerState.initial]

theorem lionheadSms_required (c : Collaborators) (fuel : Nat) (now₁ now₂ : Int)
    (conversationContexts : JsMap MapKey Context) (body : JsValue)
    (message phone_number : Option JsValue)
    (hextract : extractMessage body = .ok (some (message, phone_number)))
    (hfalsy : JsValue.truthy message = false ∨ JsValue.truthy phone_number = false) :
    lionheadSms c fuel now₁ now₂ conversationContexts body =
      { response := some .required, conversationContexts := conversationContexts,
        calls := [] } := by
  simp [lionheadSms, lionheadSmsBody, respond, Handler.bind_apply, Handler.ofExcept,
    Handler.pure, hextract, hfalsy, HandlerState.initial]

theorem lionheadSms_driver (c : Collaborators) (fuel : Nat) (now₁ now₂ : Int)
    (conversationContexts : JsMap MapKey Context) (body message phone_number : JsValue)
    (hextract : extractMessage body = .ok (some (some message, some phone_number)))
    (hm : JsValue.truthy (some message) = true)
    (hp : JsValue.truthy (some phone_number) = true) :
    lionheadSms c fuel now₁ now₂ conversationContexts body =
      respond (handleInboundMessage c fuel now₁ now₂ message phone_number)
        conversationContexts := by
  simp [lionheadSms, lionheadSmsBody, respond, Handler.bind_apply, Handler.ofExcept,
    Handler.pure, hextract, hm, hp, HandlerState.initial]

/-- C7: payload recognition of the `/lionhead-sms` handler, for every request body (an object, an
array, or any value other than `null`). If `customData.message` is truthy (present and non-empty;
a string is truthy exactly when it is not empty, a missing field is falsy) the extracted pair is
`(customData.message, phone)`, whatever `Body` and `From` hold; otherwise, if `Body` and `From`
are both truthy, it is `(Body, From)`; otherwise the response is the `400` with `receivedFormat`
the keys of the body, the store is untouched and no collaborator is called. The keys of an object
body are exactly its field names, each once, in field order when none is an array index; those of
an array are its indices. An extracted pair with a falsy (empty or missing) message or phone
number gets the `400` without `receivedFormat`, again with nothing else done; any other extracted
pair is handed to the conversation driver. -/
theorem lionheadSms_payload (c : Collaborators) (fuel : Nat) (now₁ now₂ : Int)
    (conversationContexts : JsMap MapKey Context) (body : JsValue) (hbody : body ≠ .null) :
    (JsValue.truthy (JsValue.member (JsValue.member (some body) "customData") "message") = true →
      extractMessage body =
        .ok (some (JsValue.member (JsValue.member (some body) "customData") "message",
                   JsValue.member (some body) "phone"))) ∧
    (JsValue.truthy (JsValue.member (JsValue.member (some body) "customData") "message") = false →
      JsValue.truthy (JsValue.member (some body) "Body") = true →
      JsValue.truthy (JsValue.member (some body) "From") = true →
      extractMessage body =
        .ok (some (JsValue.member (some body) "Body", JsValue.member (some body) "From"))) ∧
    (JsValue.truthy (JsValue.member (JsValue.member (some body) "customData") "message") = false →
      JsValue.truthy (JsValue.member (some body) "Body") = false ∨
        JsValue.truthy (JsValue.member (some body) "From") = false →
      ∃ receivedFormat, body.keys = .ok receivedFormat ∧
        (Response.unrecognized receivedFormat).status = 400 ∧
        lionheadSms c fuel now₁ now₂ conversationContexts body =
          { response := some (.unrecognized receivedFormat),
            conversationContexts := conversationContexts, calls := [] } ∧
        (∀ fields, body = .obj fields →
          (∀ name, name ∈ receivedFormat ↔ name ∈ fields.map Prod.fst) ∧
          receivedFormat.Nodup ∧
          ((fields.map Prod.fst).Nodup →
            (∀ name ∈ fields.map Prod.fst, JsValue.arrayIndex name = none) →
            receivedFormat = fields.map Prod.fst)) ∧
        (∀ items, body = .arr items →
          receivedFormat = (List.range items.length).map toString)) ∧
    (∀ message phone_number, extractMessage body = .ok (some (message, phone_number)) →
      JsValue.truthy message = false ∨ JsValue.truthy phone_number = false →
      Response.required.status = 400 ∧
      lionheadSms c fuel now₁ now₂ conversationContexts body =
        { response := some .required, conversationContexts := conversationContexts,
          calls := [] }) ∧
    (∀ message phone_number,
      extractMessage body = .ok (some (some message, some phone_number)) →
      JsValue.truthy (some message) = true → JsValue.truthy (some phone_number) = true →
      lionheadSms c fuel now₁ now₂ conversationContexts body =
        respond (handleInboundMessage c fuel now₁ now₂ message phone_number)
          conversationContexts) ∧
    (JsValue.truthy none = false ∧
      ∀ text : String, JsValue.truthy (some (.str text)) = true ↔ text ≠ "") := by
  have hex := extractMessage_eq body hbody
  refine ⟨?_, ?_, ?_, ?_, ?_, rfl, ?_⟩
  · intro hm
    rw [hex, if_pos hm]
  · intro hm hb hf
    rw [hex, if_neg (by simp [hm]), if_pos (by simp [hb, hf])]
  · intro hm hbf
    obtain ⟨receivedFormat, hkeys⟩ := JsValue.keys_ok body hbody
    refine ⟨receivedFormat, hkeys, rfl, ?_, ?_, ?_⟩
    · apply lionheadSms_unrecognized c fuel now₁ now₂ conversationContexts body receivedFormat _
        hkeys
      rw [hex, if_neg (by simp [hm]), if_neg]
      rcases hbf with h | h <;> simp [h]
    · intro fields hfields
      subst hfields
      simp only [JsValue.keys, Except.ok.injEq] at hkeys
      subst hkeys
      exact JsValue.ownKeys_spec _
    · intro items hitems
      subst hitems
      simp only [JsValue.keys, Except.ok.injEq] at hkeys
      exact hkeys.symm
  · intro message phone_number hextract hfalsy
    exact ⟨rfl, lionheadSms_required c fuel now₁ now₂ conversationContexts body message
      phone_number hextract hfalsy⟩
  · intro message phone_number hextract hm hp
    exact lionheadSms_driver c fuel now₁ now₂ conversationContexts body message phone_number
      hextract hm hp
  · intro text
    simp [JsValue.truthy]

/-- A body in neither shape, `{"message": "Hello", "to": "+15550001111"}`: the `400` response
lists its two keys, and nothing else happens. -/
theorem lionheadSms_payload_witness :
    lionheadSms exampleBackend 0 1000 1000 []
        (.obj [("message", .str "Hello"), ("to", .str "+15550001111")]) =
      { response := some (.unrecognized ["message", "to"]), conversationContexts := [],
        calls := [] } := by
  obtain ⟨receivedFormat, _, _, h, hobj, _⟩ :=
    (lionheadSms_payload exampleBackend 0 1000 1000 []
      (.obj [("message", .str "Hello"), ("to", .str "+15550001111")])
      (by intro h; cases h)).2.2.1 rfl (Or.inl rfl)
  have hkeys := (hobj _ rfl).2.2 (by decide) (by decide)
  rw [hkeys] at h
  exact h

/-- The empty body `{}` gets `receivedFormat: []`; array indices among the keys are listed first,
in ascending order; an array body lists its indices. -/
theorem lionheadSms_receivedFormat_examples :
    (lionheadSms exampleBackend 0 1000 1000 [] (.obj [])).response
      = some (.unrecognized []) ∧
    (lionheadSms exampleBackend 0 1000 1000 []
        (.obj [("b", .null), ("2", .null), ("a", .null), ("1", .null)])).response
      = some (.unrecognized ["1", "2", "b", "a"]) ∧
    (lionheadSms exampleBackend 0 1000 1000 [] (.arr [.str "x", .str "y"])).response
      = some (.unrecognized ["0", "1"]) :=
  ⟨rfl, rfl, rfl⟩

/-- The two recognised shapes: the custom shape wins when both are present, with the phone number
taken from `phone`; the webhook shape is used when `customData.message` is empty. -/
theorem extractMessage_examples :
    extractMessage
        (.obj [("customData", .obj [("message", .str "Hi")]), ("phone", .str "+15550002222"),
               ("Body", .str "Hello"), ("From", .str "+15550001111")])
      = .ok (some (some (.str "Hi"), some (.str "+15550002222"))) ∧
    extractMessage
        (.obj [("customData", .obj [("message", .str "")]), ("phone", .str "+15550002222"),
               ("Body", .str "Hello"), ("From", .str "+15550001111")])
      = .ok (some (some (.str "Hello"), some (.str "+15550001111"))) ∧
    (lionheadSms exampleBackend 0 1000 1000 []
        (.obj [("customData", .obj [("message", .str "Hi")])])).response
      = some .required :=
  ⟨rfl, rfl, rfl⟩

theorem freshAddress_gt (m : JsMap MapKey Context) (address : Nat) (context : Context)
    (h : (MapKey.object address, context) ∈ m) : address < freshAddress m := by
  induction m with
  | nil => simp at h
  | cons e rest ih =>
    obtain ⟨k, v⟩ := e
    rcases List.mem_cons.1 h with h | h
    · cases h
      simp only [freshAddress]
      omega
    · have := ih h
      cases k with
      | value w => simpa only [freshAddress] using this
      | object b =>
        simp only [freshAddress]
        omega

/-- An object or an array used as phone number is identical to no key of the store: the request
finds no session for it. -/
theorem sessionKey_fresh (m : JsMap MapKey Context) (phone_number : JsValue)
    (h : (∃ items, phone_number = .arr items) ∨ (∃ fields, phone_number = .obj fields)) :
    JsMap.get m (sessionKey m phone_number) = none := by
  have hkey : sessionKey m phone_number = .object (freshAddress m) := by
    rcases h with ⟨items, rfl⟩ | ⟨fields, rfl⟩ <;> rfl
  rw [hkey]
  cases hg : JsMap.get m (MapKey.object (freshAddress m)) with
  | none => rfl
  | some context =>
    have := freshAddress_gt m _ _ (JsMap.mem_of_get m _ _ hg)
    omega

theorem openThread_existing (c : Collaborators) (now₁ now₂ : Int) (phone_number : JsValue)
    (s : HandlerState) (context : Context) (id : String)
    (hctx : JsMap.get s.conversationContexts (sessionKey s.conversationContexts phone_number)
      = some context)
    (hid : context.threadId = some id) (hne : id ≠ "") :
    openThread c now₁ now₂ phone_number s =
      (.done id,
       { s with conversationContexts :=
           (getOrCreateContext now₁ now₂ s.conversationContexts
             (sessionKey s.conversationContexts phone_number)).2 }) := by
  have h1 := getOrCreateContext_of_get now₁ now₂ s.conversationContexts
    (sessionKey s.conversationContexts phone_number) context hctx
  simp only [openThread, Handler.bind_apply, lookupContext, h1, ensureThread, hid, hasThread]
  simp [hne, Handler.pure]

theorem openThread_created (c : Collaborators) (now₁ now₂ : Int) (phone_number : JsValue)
    (s : HandlerState) (context : Context) (id : String)
    (hctx : (getOrCreateContext now₁ now₂ s.conversationContexts
      (sessionKey s.conversationContexts phone_number)).1 = some context)
    (hnone : hasThread context.threadId = false) (hcreate : c.threadsCreate = .ok id) :
    openThread c now₁ now₂ phone_number s =
      (.done id,
       { s with
         conversationContexts :=
           JsMap.set (getOrCreateContext now₁ now₂ s.conversationContexts
               (sessionKey s.conversationContexts phone_number)).2
             (sessionKey s.conversationContexts phone_number) { context with threadId := some id },
         calls := s.calls ++ [Call.threadsCreate] }) := by
  simp only [openThread, Handler.bind_apply, lookupContext, hctx, ensureThread, hnone]
  simp [Handler.call, Handler.ofExcept, hcreate, assignThread, Handler.pure, Handler.bind_apply]

/-- The final state of the driver, once the thread is open: the store is the one left by
`openThread`, and no thread is created afterwards. -/
theorem handleInboundMessage_after_openThread (c : Collaborators) (fuel : Nat) (now₁ now₂ : Int)
    (message phone_number : JsValue) (s s₁ : HandlerState) (threadId : String)
    (hopen : openThread c now₁ now₂ phone_number s = (.done threadId, s₁)) :
    HandlerState.Inert s₁ (handleInboundMessage c fuel now₁ now₂ message phone_number s).2 := by
  rw [handleInboundMessage_eq, Handler.bind_of_done _ _ s s₁ threadId hopen]
  exact inert_afterThread c fuel message phone_number threadId s₁

/-- C6: the thread handle of a session is kept. For a session that holds a thread identifier
(a non-empty string, as the backend issues them), handling a further inbound message for that
conversation identifier (a message whose phone number is the key of that session in the store)
makes no `threads.create` call and leaves the session stored with the same `threadId` (and
`createdAt`), whatever the later steps of the request do: whether the request is answered, fails
at any later step, or is still polling. Likewise a thread created by this request stays stored in
the session whatever happens afterwards. A phone number that is an object or an array is the key
of no stored session, since the store compares such keys by identity. -/
theorem handleInboundMessage_keeps_thread (c : Collaborators) (fuel : Nat) (now₁ now₂ : Int)
    (message phone_number : JsValue) (conversationContexts : JsMap MapKey Context) :
    (∀ context id,
      JsMap.get conversationContexts (sessionKey conversationContexts phone_number)
        = some context →
      context.threadId = some id → id ≠ "" →
      Call.threadsCreate ∉
        (respond (handleInboundMessage c fuel now₁ now₂ message phone_number)
          conversationContexts).calls ∧
      JsMap.get
        (respond (handleInboundMessage c fuel now₁ now₂ message phone_number)
          conversationContexts).conversationContexts
        (sessionKey conversationContexts phone_number)
        = some { threadId := some id, createdAt := context.createdAt, lastUpdated := now₁ }) ∧
    (∀ context id,
      (getOrCreateContext now₁ now₂ conversationContexts
        (sessionKey conversationContexts phone_number)).1 = some context →
      hasThread context.threadId = false → c.threadsCreate = .ok id →
      JsMap.get
        (respond (handleInboundMessage c fuel now₁ now₂ message phone_number)
          conversationContexts).conversationContexts
        (sessionKey conversationContexts phone_number)
        = some { threadId := some id, createdAt := context.createdAt,
                 lastUpdated := context.lastUpdated }) ∧
    ((∃ items, phone_number = .arr items) ∨ (∃ fields, phone_number = .obj fields) →
      JsMap.get conversationContexts (sessionKey conversationContexts phone_number) = none) := by
  refine ⟨?_, ?_, sessionKey_fresh conversationContexts phone_number⟩
  · intro context id hctx hid hne
    have hopen := openThread_existing c now₁ now₂ phone_number
      (HandlerState.initial conversationContexts) context id hctx hid hne
    have hinert := handleInboundMessage_after_openThread c fuel now₁ now₂ message phone_number
      _ _ id hopen
    rw [respond_calls, respond_conversationContexts]
    constructor
    · intro hmem
      have := hinert.2 hmem
      simp [HandlerState.initial] at this
    · rw [hinert.1]
      have h := getOrCreateContext_of_get now₁ now₂ conversationContexts
        (sessionKey conversationContexts phone_number) context hctx
      simp only [HandlerState.initial]
      rw [h, JsMap.get_set_self, hid]
  · intro context id hctx hnone hcreate
    have hopen := openThread_created c now₁ now₂ phone_number
      (HandlerState.initial conversationContexts) context id hctx hnone hcreate
    have hinert := handleInboundMessage_after_openThread c fuel now₁ now₂ message phone_number
      _ _ id hopen
    rw [respond_conversationContexts, hinert.1]
    simp only [HandlerState.initial]
    rw [JsMap.get_set_self]

/-- A known number whose session holds `thread_a` writes again, and the backend refuses to start
the run: the request fails, no thread was created, and the session still holds `thread_a`. -/
theorem handleInboundMessage_keeps_thread_witness :
    (respond (handleInboundMessage failingBackend 0 3000 3000 (.str "Hello") (.str "+15550001111"))
        [(.value (.str "+15550001111"),
          { threadId := some "thread_a", createdAt := 1000, lastUpdated := 1001 })]).response
      = some (.failure (.rejected "backend unavailable")) ∧
    Call.threadsCreate ∉
      (respond (handleInboundMessage failingBackend 0 3000 3000 (.str "Hello")
          (.str "+15550001111"))
        [(.value (.str "+15550001111"),
          { threadId := some "thread_a", createdAt := 1000, lastUpdated := 1001 })]).calls ∧
    JsMap.get
      (respond (handleInboundMessage failingBackend 0 3000 3000 (.str "Hello")
          (.str "+15550001111"))
        [(.value (.str "+15550001111"),
          { threadId := some "thread_a", createdAt := 1000, lastUpdated := 1001 })]
        ).conversationContexts (.value (.str "+15550001111"))
      = some { threadId := some "thread_a", createdAt := 1000, lastUpdated := 3000 } :=
  ⟨rfl,
   (handleInboundMessage_keeps_thread failingBackend 0 3000 3000 (.str "Hello")
      (.str "+15550001111")
      [(.value (.str "+15550001111"),
        { threadId := some "thread_a", createdAt := 1000, lastUpdated := 1001 })]).1
      { threadId := some "thread_a", createdAt := 1000, lastUpdated := 1001 } "thread_a"
      rfl rfl (by decide)⟩

/-- C8: when the driver reaches a final run status other than `completed` (whatever it is, and
whatever `last_error` holds), the reply is the fixed fallback text, that text is sent to the
conversation identifier, and once the send returns the outbound message identifier the response is
the `200` with `success: true`, the fallback text and that identifier. -/
theorem handleInboundMessage_fallback (c : Collaborators) (fuel : Nat) (now₁ now₂ : Int)
    (message phone_number : JsValue) (conversationContexts : JsMap MapKey Context)
    (threadId : String) (runStatus : Run) (s₁ : HandlerState) (sid : String)
    (hrun : runAssistant c fuel now₁ now₂ message phone_number
        (HandlerState.initial conversationContexts) = (.done (threadId, runStatus), s₁))
    (hstatus : runStatus.status ≠ "completed")
    (hsend : c.twilioMessagesCreate s₁.sends
        { body := .text "I'm having trouble processing your request right now. Please try again.",
          to_ := phone_number } = .ok sid) :
    respond (handleInboundMessage c fuel now₁ now₂ message phone_number) conversationContexts =
      { response := some (.success
          "I'm having trouble processing your request right now. Please try again." sid),
        conversationContexts := s₁.conversationContexts,
        calls := s₁.calls ++ [Call.twilioMessagesCreate
          { body := .text "I'm having trouble processing your request right now. Please try again.",
            to_ := phone_number }] } ∧
    (Response.success
      "I'm having trouble processing your request right now. Please try again." sid).status
      = 200 := by
  refine ⟨?_, rfl⟩
  simp [respond, handleInboundMessage, Handler.bind_apply, hrun, responseTextFor, hstatus,
    sendReply, hsend, Handler.ofExcept, Handler.pure]

/-- A run that ends `failed` with an error detail: the sender gets the fallback text. -/
theorem handleInboundMessage_fallback_witness :
    respond (handleInboundMessage failedBackend 0 1000 1000 (.str "Hello") (.str "+15550001111"))
        [] =
      { response := some (.success
          "I'm having trouble processing your request right now. Please try again." "SM1"),
        conversationContexts :=
          [(.value (.str "+15550001111"),
            { threadId := some "thread_1", createdAt := 1000, lastUpdated := 1000 })],
        calls :=
          [.threadsCreate, .threadMessagesCreate "thread_1" (.str "Hello"),
           .runsCreate "thread_1", .runsRetrieve "thread_1" "run_1"] ++
          [Call.twilioMessagesCreate
            { body := .text
                "I'm having trouble processing your request right now. Please try again.",
              to_ := .str "+15550001111" }] } :=
  (handleInboundMessage_fallback failedBackend 0 1000 1000 (.str "Hello") (.str "+15550001111")
    [] "thread_1"
    { status := "failed", required_action := none, last_error := some "rate_limit_exceeded" }
    { conversationContexts :=
        [(.value (.str "+15550001111"),
          { threadId := some "thread_1", createdAt := 1000, lastUpdated := 1000 })],
      calls :=
        [.threadsCreate, .threadMessagesCreate "thread_1" (.str "Hello"),
         .runsCreate "thread_1", .runsRetrieve "thread_1" "run_1"],
      retrieves := 1, sends := 0 }
    "SM1" rfl (by decide) rfl).1

/-- A run that asks for tool outputs again after the single round-trip is treated like any other
status that is not `completed`. -/
theorem lionheadSms_requires_action_twice :
    (lionheadSms insistingBackend 0 1000 1000 [] helloBody).response =
      some (.success
        "I'm having trouble processing your request right now. Please try again." "SM1") :=
  rfl

/-- C9 as stated fails: with a `completed` run, an empty message list, or a latest assistant
message whose first content part is not a text part, makes the handler throw a `TypeError`, and
the response is the `500` failure instead of `success: true` with a reply. -/
theorem lionheadSms_completed_without_text :
    (lionheadSms emptyThreadBackend 0 1000 1000 [] helloBody).response
      = some (.failure .typeError) ∧
    (lionheadSms imageFirstBackend 0 1000 1000 [] helloBody).response
      = some (.failure .typeError) :=
  ⟨rfl, rfl⟩

/-- C9 (amended): when the final run status is `completed` and the backend returns a non-empty
latest-first message list, the reply is the text of the first content part of the first message
when that message has role `assistant` and its first content part is a text part, and the empty
string when its role is not `assistant`; the reply is sent to the conversation identifier, and
once the send returns the outbound message identifier the response is `success: true` with the
reply and that identifier. For an empty list, and for a first message of role `assistant` whose
content is empty or starts with a part without text, the handler throws a `TypeError` after
listing the messages: nothing is sent and the response is the `500` failure. -/
theorem handleInboundMessage_completed (c : Collaborators) (fuel : Nat) (now₁ now₂ : Int)
    (message phone_number : JsValue) (conversationContexts : JsMap MapKey Context)
    (threadId : String) (runStatus : Run) (s₁ : HandlerState)
    (hrun : runAssistant c fuel now₁ now₂ message phone_number
        (HandlerState.initial conversationContexts) = (.done (threadId, runStatus), s₁))
    (hstatus : runStatus.status = "completed") :
    (∀ (latestMessage : Message) (older : List Message) (reply sid : String),
      c.threadMessagesList threadId = .ok (latestMessage :: older) →
      (latestMessage.role = "assistant" ∧
          ∃ rest, latestMessage.content = ContentPart.mk (some reply) :: rest) ∨
        (latestMessage.role ≠ "assistant" ∧ reply = "") →
      c.twilioMessagesCreate s₁.sends { body := .text reply, to_ := phone_number } = .ok sid →
      respond (handleInboundMessage c fuel now₁ now₂ message phone_number) conversationContexts =
        { response := some (.success reply sid),
          conversationContexts := s₁.conversationContexts,
          calls := s₁.calls ++ [Call.threadMessagesList threadId,
            Call.twilioMessagesCreate { body := .text reply, to_ := phone_number }] }) ∧
    (c.threadMessagesList threadId = .ok [] →
      respond (handleInboundMessage c fuel now₁ now₂ message phone_number) conversationContexts =
        { response := some (.failure .typeError),
          conversationContexts := s₁.conversationContexts,
          calls := s₁.calls ++ [Call.threadMessagesList threadId] }) ∧
    (∀ (latestMessage : Message) (older : List Message),
      c.threadMessagesList threadId = .ok (latestMessage :: older) →
      latestMessage.role = "assistant" →
      latestMessage.content = [] ∨ (∃ rest, latestMessage.content = ContentPart.mk none :: rest) →
      respond (handleInboundMessage c fuel now₁ now₂ message phone_number) conversationContexts =
        { response := some (.failure .typeError),
          conversationContexts := s₁.conversationContexts,
          calls := s₁.calls ++ [Call.threadMessagesList threadId] }) := by
  refine ⟨?_, ?_, ?_⟩
  · intro latestMessage older reply sid hlist hreply hsend
    rcases hreply with ⟨hrole, rest, hcontent⟩ | ⟨hrole, hempty⟩
    · simp [respond, handleInboundMessage, Handler.bind_apply, hrun, responseTextFor, hstatus,
        Handler.call, hlist, hrole, hcontent, sendReply, hsend, Handler.ofExcept, Handler.pure]
    · subst hempty
      simp [respond, handleInboundMessage, Handler.bind_apply, hrun, responseTextFor, hstatus,
        Handler.call, hlist, hrole, sendReply, hsend, Handler.ofExcept, Handler.pure]
  · intro hlist
    simp [respond, handleInboundMessage, Handler.bind_apply, hrun, responseTextFor, hstatus,
      Handler.call, hlist, Handler.ofExcept]
  · intro latestMessage older hlist hrole hcontent
    rcases hcontent with hcontent | ⟨rest, hcontent⟩
    · simp [respond, handleInboundMessage, Handler.bind_apply, hrun, responseTextFor, hstatus,
        Handler.call, hlist, hrole, hcontent, Handler.ofExcept]
    · simp [respond, handleInboundMessage, Handler.bind_apply, hrun, responseTextFor, hstatus,
        Handler.call, hlist, hrole, hcontent, Handler.ofExcept]

/-- A first `Hello` answered by a run that is `completed` at once, with the single assistant
message `Hi there`. -/
theorem handleInboundMessage_completed_witness :
    respond (handleInboundMessage exampleBackend 0 1000 1000 (.str "Hello")
        (.str "+15550001111")) [] =
      { response := some (.success "Hi there" "SM1"),
        conversationContexts :=
          [(.value (.str "+15550001111"),
            { threadId := some "thread_1", createdAt := 1000, lastUpdated := 1000 })],
        calls :=
          [.threadsCreate, .threadMessagesCreate "thread_1" (.str "Hello"),
           .runsCreate "thread_1", .runsRetrieve "thread_1" "run_1"] ++
          [Call.threadMessagesList "thread_1",
           Call.twilioMessagesCreate
            { body := .text "Hi there", to_ := .str "+15550001111" }] } :=
  (handleInboundMessage_completed exampleBackend 0 1000 1000 (.str "Hello") (.str "+15550001111")
    [] "thread_1" (Run.ofStatus "completed")
    { conversationContexts :=
        [(.value (.str "+15550001111"),
          { threadId := some "thread_1", createdAt := 1000, lastUpdated := 1000 })],
      calls :=
        [.threadsCreate, .threadMessagesCreate "thread_1" (.str "Hello"),
         .runsCreate "thread_1", .runsRetrieve "thread_1" "run_1"],
      retrieves := 1, sends := 0 }
    rfl rfl).1
    { role := "assistant", content := [ContentPart.mk (some "Hi there")] } [] "Hi there" "SM1"
    rfl (Or.inl ⟨rfl, [], rfl⟩) rfl

/-- An object used as phone number is a new key at every request: the same body sent twice
creates two threads and leaves two sessions in the store. -/
theorem lionheadSms_object_phone_twice :
    (lionheadSms exampleBackend 0 2000 2000
        (lionheadSms exampleBackend 0 1000 1000 []
          (.obj [("Body", .str "Hello"), ("From", .obj [("a", .num (.finite 1))])])
          ).conversationContexts
        (.obj [("Body", .str "Hello"), ("From", .obj [("a", .num (.finite 1))])])
      ).conversationContexts
      = [(.object 0, { threadId := some "thread_1", createdAt := 1000, lastUpdated := 1000 }),
         (.object 1, { threadId := some "thread_1", createdAt := 2000, lastUpdated := 2000 })] :=
  rfl


end Lionhead
